import Mathlib

/-!
The package octogo/net: connection admission bookkeeping and its registry.

A shallow embedding of `service/service.go` (the admission manager) and of
`vendor/github.com/octogo/dict/dict.go` (the registry it is built on).

* `Data V` is the `map[string]interface{}` held in the field `data` of a
  `dict.Dict`, with the Go builtins the owner goroutine applies to it.
* `Dict V` is a `dict.Dict`: its `data` and whether its channels are closed.
  `Dict.run` is one iteration of the owner goroutine's `select` loop, and
  `Dict.Get`, `Dict.Set`, `Dict.Del`, `Dict.Map`, `Dict.Close` are the public
  methods as seen by a caller.
* `Service` is the bookkeeping state of `service.Service`; `addClient` and
  `delClient` are the two functions of the same name.
* `handleConnection.step` is an interleaving semantics of `handleConnection`
  and of the two goroutines it starts.
* `Interleaving.step` runs an `addClient` and a `delClient` at the same time,
  one registry call or count update per step.
-/

namespace OctogoNet

/-! ## `map[string]interface{}` -/

/-- Entries of a Go map with string keys: a key occurs at most once. -/
structure Data (V : Type) where
  entries : List (String × V)
  nodup : (entries.map Prod.fst).Nodup

namespace Data

variable {V : Type}

/-- Lookup in a list of entries: the value bound to `k`, if any. -/
def lookupL : List (String × V) → String → Option V
  | [], _ => none
  | (k', v) :: m, k => if k' = k then some v else lookupL m k

/-- Assignment in a list of entries: overwrite the binding of `k` where it
is, or add a binding when there is none. -/
def assignL : List (String × V) → String → V → List (String × V)
  | [], k, v => [(k, v)]
  | (k', v') :: m, k, v => if k' = k then (k, v) :: m else (k', v') :: assignL m k v

/-- Removal in a list of entries: drop every binding of `k`. -/
def deleteL : List (String × V) → String → List (String × V)
  | [], _ => []
  | (k', v') :: m, k => if k' = k then deleteL m k else (k', v') :: deleteL m k

theorem keys_assignL (m : List (String × V)) (k : String) (v : V) :
    ∀ x, x ∈ (assignL m k v).map Prod.fst ↔ x = k ∨ x ∈ m.map Prod.fst := by
  induction m with
  | nil => intro x; simp [assignL]
  | cons p m ih =>
    intro x
    obtain ⟨k', v'⟩ := p
    by_cases h : k' = k
    · subst h; simp [assignL]
    · simp only [assignL, h, if_false, List.map_cons, List.mem_cons, ih]
      tauto

theorem nodup_assignL (m : List (String × V)) (k : String) (v : V)
    (h : (m.map Prod.fst).Nodup) : ((assignL m k v).map Prod.fst).Nodup := by
  induction m with
  | nil => simp [assignL]
  | cons p m ih =>
    obtain ⟨k', v'⟩ := p
    simp only [List.map_cons, List.nodup_cons] at h
    by_cases hk : k' = k
    · subst hk; simpa [assignL] using h
    · simp only [assignL, hk, if_false, List.map_cons, List.nodup_cons]
      refine ⟨?_, ih h.2⟩
      intro hmem
      rcases (keys_assignL m k v k').1 hmem with h1 | h1
      · exact hk h1
      · exact h.1 h1

theorem keys_deleteL (m : List (String × V)) (k : String) :
    ∀ x, x ∈ (deleteL m k).map Prod.fst ↔ x ≠ k ∧ x ∈ m.map Prod.fst := by
  induction m with
  | nil => intro x; simp [deleteL]
  | cons p m ih =>
    intro x
    obtain ⟨k', v'⟩ := p
    by_cases h : k' = k
    · subst h
      simp only [deleteL, if_true, ih, List.map_cons, List.mem_cons]
      tauto
    · simp only [deleteL, h, if_false, List.map_cons, List.mem_cons, ih]
      constructor
      · rintro (h1 | h1)
        · subst h1; exact ⟨h, Or.inl rfl⟩
        · exact ⟨h1.1, Or.inr h1.2⟩
      · rintro ⟨h1, h2 | h2⟩
        · exact Or.inl h2
        · exact Or.inr ⟨h1, h2⟩

theorem nodup_deleteL (m : List (String × V)) (k : String)
    (h : (m.map Prod.fst).Nodup) : ((deleteL m k).map Prod.fst).Nodup := by
  induction m with
  | nil => simp [deleteL]
  | cons p m ih =>
    obtain ⟨k', v'⟩ := p
    simp only [List.map_cons, List.nodup_cons] at h
    by_cases hk : k' = k
    · simpa [deleteL, hk] using ih h.2
    · simp only [deleteL, hk, if_false, List.map_cons, List.nodup_cons]
      refine ⟨?_, ih h.2⟩
      intro hmem
      exact h.1 ((keys_deleteL m k k').1 hmem).2

/-- The empty map, `make(map[string]interface{})`. -/
def empty : Data V := ⟨[], List.nodup_nil⟩

/-- The index expression `v, found := m[k]`: `none` when `k` is absent. -/
def lookup (m : Data V) (k : String) : Option V := lookupL m.entries k

/-- The assignment `m[k] = v`. -/
def assign (m : Data V) (k : String) (v : V) : Data V :=
  ⟨assignL m.entries k v, nodup_assignL m.entries k v m.nodup⟩

/-- The builtin `delete(m, k)`: nothing happens when `k` is absent. -/
def delete (m : Data V) (k : String) : Data V :=
  ⟨deleteL m.entries k, nodup_deleteL m.entries k m.nodup⟩

/-- The builtin `len(m)`: the number of keys. -/
def len (m : Data V) : Nat := m.entries.length

/-- The keys of the map. -/
def keys (m : Data V) : List String := m.entries.map Prod.fst

/-- The copy loop `for k, v := range m { out[k] = v }` into a fresh map. -/
def copy (m : Data V) : Data V :=
  m.entries.foldl (fun out p => out.assign p.1 p.2) empty

/-- The map with the same keys whose values are the images under `f`. -/
def mapVal {W : Type} (f : V → W) (m : Data V) : Data W :=
  ⟨m.entries.map (fun p => (p.1, f p.2)), by
    have h : (m.entries.map (fun p => (p.1, f p.2))).map Prod.fst = m.entries.map Prod.fst := by
      rw [List.map_map]; rfl
    rw [h]; exact m.nodup⟩

theorem ext {a b : Data V} (h : a.entries = b.entries) : a = b := by
  cases a; cases b; cases h; rfl

instance [DecidableEq V] : DecidableEq (Data V) := fun a b =>
  decidable_of_iff (a.entries = b.entries) ⟨ext, fun h => by rw [h]⟩

end Data

/-! ## `dict.Dict` -/

/-- Result of a call that may panic instead of returning. -/
inductive Outcome (α : Type) where
  | ret (a : α)
  | panic (msg : String)
  deriving DecidableEq, Repr

/-- The runtime panic of a send on a closed channel. -/
def sendOnClosed : String := "send on closed channel"

/-- A `dict.Dict`: the map `data` owned by the goroutine started by `run`, and
whether that goroutine has returned, which closes `chDel`, `chSet`, `chGet`,
`chList` and `chClose` in its deferred function. -/
structure Dict (V : Type) where
  data : Data V
  closed : Bool

/-- What a caller puts on one of the five channels of a `Dict`. -/
inductive Msg (V : Type) where
  | chClose
  | chDel (k : String)
  | chSet (k : String) (v : V)
  | chGet (k : String)
  | chList

/-- What the owner goroutine answers on the channels of a `lookup`. -/
inductive Reply (V : Type) where
  | nothing
  | error
  | response (v : V)
  | responseMap (m : Data V)

namespace Dict

variable {V : Type}

/-- The constructor `New(nil)`: an empty registry whose owner goroutine is
running. -/
def New : Dict V := ⟨Data.empty, false⟩

/-- One iteration of the `select` loop of `run` on a received message: the
`chClose` case returns from the goroutine, whose deferred function closes the
channels; the other cases act on `data` and answer the `lookup`. -/
def run (d : Dict V) : Msg V → Dict V × Reply V
  | .chClose => ({ d with closed := true }, .nothing)
  | .chDel k => ({ d with data := d.data.delete k }, .nothing)
  | .chSet k v => ({ d with data := d.data.assign k v }, .nothing)
  | .chGet k =>
    match d.data.lookup k with
    | none => (d, .error)
    | some v => (d, .response v)
  | .chList => (d, .responseMap d.data.copy)

/-- The method `Del(k)`: the send `d.chDel <- k` and the owner's handling of
it. -/
def Del (d : Dict V) (k : String) : Outcome (Dict V) :=
  if d.closed then .panic sendOnClosed else .ret (d.run (.chDel k)).1

/-- The method `Set(k, v)`: the send of the pair on `d.chSet` and the owner's
handling of it. -/
def Set (d : Dict V) (k : String) (v : V) : Outcome (Dict V) :=
  if d.closed then .panic sendOnClosed else .ret (d.run (.chSet k v)).1

/-- The method `Get(k)`: the send `d.chGet <- l`, then the `select` on `l.Error` and
`l.Response`. The value is `none` for Go's `nil`. -/
def Get (d : Dict V) (k : String) : Outcome (Option V × Bool) :=
  if d.closed then .panic sendOnClosed
  else match (d.run (.chGet k)).2 with
    | .response v => .ret (some v, true)
    | _ => .ret (none, false)

/-- The method `Map()`: the send `d.chList <- l`, then the `select` on `l.Error` and
`l.Response`; anything but a map on `l.Response` gives the empty `out`. -/
def Map (d : Dict V) : Outcome (Data V) :=
  if d.closed then .panic sendOnClosed
  else match (d.run .chList).2 with
    | .responseMap m => .ret m
    | _ => .ret Data.empty

/-- The method `Close()`: the send on `d.chClose` and the owner's return. -/
def Close (d : Dict V) : Outcome (Dict V) :=
  if d.closed then .panic sendOnClosed else .ret (d.run .chClose).1

/-- The calls `Set(k, v)` for the pairs of a list, one after the other. -/
def setAll : Dict V → List (String × V) → Outcome (Dict V)
  | d, [] => .ret d
  | d, (k, v) :: kvs =>
    match d.Set k v with
    | .ret d1 => setAll d1 kvs
    | .panic msg => .panic msg

end Dict

/-! ## `service.Service` -/

/-- A `net.Conn` as the bookkeeping sees it: the identity of the handle and
what `RemoteAddr().Network()` and `RemoteAddr().String()` return. -/
structure Conn where
  id : Nat
  network : String
  remote : String
  deriving DecidableEq, Repr

/-- The standard library call `net.ResolveTCPAddr(network, address)` followed
by `addr.IP.String()`: an error text, or the source IP as a string. It is
taken as a function of its two arguments, the same in `addClient` and in
`delClient`. -/
abbrev Resolver := String → String → Except String String

/-- The `error` values that `addClient` and `delClient` return. -/
inductive Err where
  | errTooManyConnections
  | errTooManyConnectionsPerIP
  | resolveErr (msg : String)
  | errorsNew (msg : String)
  deriving DecidableEq, Repr

/-- The text `err.Error()` of an error. -/
def Err.Error : Err → String
  | .errTooManyConnections => "too many connections"
  | .errTooManyConnectionsPerIP => "too many connections from IP address"
  | .resolveErr msg => msg
  | .errorsNew msg => msg

/-- The least `int64`, `-2^63`. -/
def minInt64 : Int := -9223372036854775808

/-- The greatest `int64`, `2^63 - 1`. -/
def maxInt64 : Int := 9223372036854775807

/-- The `int64` that Go's `+` and `-` on `int64` give for the integer `x`:
the value congruent to `x` modulo `2^64` in the range of `int64`. -/
def wrap64 (x : Int) : Int :=
  (x + 9223372036854775808) % 18446744073709551616 - 9223372036854775808

theorem wrap64_range (x : Int) : minInt64 ≤ wrap64 x ∧ wrap64 x ≤ maxInt64 := by
  unfold wrap64 minInt64 maxInt64
  omega

/-- The fields of `service.Service` that `addClient`, `delClient` and
`ConnectionCount` read or write. Both registry levels are `*dict.Dict` values
that nothing in the package closes, so each is held by its `data`: the outer
one maps a source IP to the inner one of that IP, and a write through the
pointer to an inner registry shows as a new value under that IP. The count is
an `int64`: an integer in the range of `int64`, which `addClient` and
`delClient` move by one with `wrap64`. The two limits are only compared. -/
structure Service where
  MaxConnections : Int
  MaxConnectionsPerIP : Int
  connections : Data (Data Conn)
  connectionCount : Int
  countInt64 : minInt64 ≤ connectionCount ∧ connectionCount ≤ maxInt64
  deriving DecidableEq

/-- The constructor `New(l, h)`: no limits, an empty outer registry, a count of zero. -/
def New : Service :=
  { MaxConnections := 0
    MaxConnectionsPerIP := 0
    connections := Data.empty
    connectionCount := 0
    countInt64 := by decide }

/-- The method `addClient(conn)`: the returned error (`none` for `nil`) and the state
after the call. -/
def addClient (resolve : Resolver) (s : Service) (conn : Conn) : Option Err × Service :=
  -- check max connections
  if 0 < s.MaxConnections ∧ s.MaxConnections ≤ s.connectionCount then
    (some .errTooManyConnections, s)
  else
    -- obtain net.Addr from conn
    match resolve conn.network conn.remote with
    | .error e => (some (.resolveErr e), s)
    | .ok ip =>
      -- conns, found := s.connections.Get(ip), and the !found branch
      let (curConns, connections) :=
        match s.connections.lookup ip with
        | some conns => (conns, s.connections)
        | none => (Data.empty, s.connections.assign ip Data.empty)
      -- check max connections per IP
      if 0 < s.MaxConnectionsPerIP ∧ s.MaxConnectionsPerIP ≤ (curConns.copy.len : Int) then
        (some .errTooManyConnectionsPerIP, { s with connections := connections })
      else
        (none, { s with
          connections := connections.assign ip (curConns.assign conn.remote conn)
          connectionCount := wrap64 (s.connectionCount + 1)
          countInt64 := wrap64_range _ })

/-- The method `delClient(conn)`: the returned error (`none` for `nil`) and the state
after the call. -/
def delClient (resolve : Resolver) (s : Service) (conn : Conn) : Option Err × Service :=
  -- obtain net.Addr from conn
  match resolve conn.network conn.remote with
  | .error e => (some (.resolveErr e), s)
  | .ok ip =>
    -- get the registry for the connection's remote IP
    match s.connections.lookup ip with
    | none => (some (.errorsNew ("no connections from this IP: " ++ ip)), s)
    | some conns =>
      let conns1 := conns.delete conn.remote
      let connections := s.connections.assign ip conns1
      let connections := if conns1.copy.len = 0 then connections.delete ip else connections
      (none, { s with
        connections := connections
        connectionCount := wrap64 (s.connectionCount - 1)
        countInt64 := wrap64_range _ })

/-- The method `ConnectionCount()`: the current count. -/
def ConnectionCount (s : Service) : Int := s.connectionCount

/-- A call of one of the two bookkeeping functions. -/
inductive Op where
  | add (c : Conn)
  | del (c : Conn)
  deriving DecidableEq, Repr

/-- The call `op` in state `s`: `addClient` for `add`, `delClient` for
`del`. -/
def Op.apply (resolve : Resolver) (s : Service) : Op → Option Err × Service
  | .add c => addClient resolve s c
  | .del c => delClient resolve s c

/-- The state after a sequence of calls, one after the other. -/
def runOps (resolve : Resolver) : Service → List Op → Service
  | s, [] => s
  | s, op :: ops => runOps resolve (op.apply resolve s).2 ops

/-- The errors returned by a sequence of calls, one after the other. -/
def runResults (resolve : Resolver) : Service → List Op → List (Option Err)
  | _, [] => []
  | s, op :: ops => (op.apply resolve s).1 :: runResults resolve (op.apply resolve s).2 ops

/-- A service from `New` whose two limits have then been set. -/
def configured (maxConnections maxConnectionsPerIP : Int) : Service :=
  { New with MaxConnections := maxConnections, MaxConnectionsPerIP := maxConnectionsPerIP }

/-- The open connections after a sequence of calls, as the specification
counts them: a connection becomes open when `addClient` returns `nil` for it
and stops being open at the next `delClient` called on it. `opened` holds the
connections open before the calls. -/
def openAfter (resolve : Resolver) : Service → List Conn → List Op → List Conn
  | _, opened, [] => opened
  | s, opened, .add c :: ops =>
    openAfter resolve (addClient resolve s c).2
      (if (addClient resolve s c).1 = none then opened ++ [c] else opened) ops
  | s, opened, .del c :: ops =>
    openAfter resolve (delClient resolve s c).2 (opened.erase c) ops

/-- The inner registry `addClient` works on for `ip`: the one found in the
outer registry, or the empty one it creates. -/
def currentConns (s : Service) (ip : String) : Data Conn :=
  (s.connections.lookup ip).getD Data.empty

/-- Every inner registry of the outer registry is non-empty and holds each
connection under its remote endpoint, in the registry of its source IP. -/
def WellKeyed (resolve : Resolver) (s : Service) : Prop :=
  ∀ ip inner, s.connections.lookup ip = some inner →
    inner.len ≠ 0 ∧
    ∀ key c, inner.lookup key = some c →
      key = c.remote ∧ resolve c.network c.remote = .ok ip

/-- No inner registry holds more than `MaxConnectionsPerIP` entries. -/
def Capped (s : Service) : Prop :=
  ∀ ip inner, s.connections.lookup ip = some inner → (inner.len : Int) ≤ s.MaxConnectionsPerIP

/-! ## `handleConnection` and the goroutines it starts -/

namespace handleConnection

/-- The three sequential activities of one `handleConnection(conn)`: the call
itself in the accept loop, the goroutine it starts with `go func(c, s)`, and
the goroutine that one starts to run `s.Handler(conn)`. -/
inductive Tid where
  | main
  | task
  | handler
  deriving DecidableEq, Repr, Fintype

/-- What the three activities do that can be observed from outside. -/
inductive Event where
  | addClient (c : Conn) (err : Option Err)
  | write (c : Conn) (text : String)
  | close (c : Conn)
  | goTask (c : Conn)
  | goHandler (c : Conn)
  | handlerCall (c : Conn)
  | handlerReturn (c : Conn) (err : Option String)
  | receive (err : Option String)
  | log (text : String)
  | delClient (c : Conn) (err : Option Err)
  deriving DecidableEq, Repr

/-- Where `handleConnection` stands: before `s.addClient(conn)`; before
`conn.Write` with the error; before the `go` statement; at its return, where
the deferred `conn.Close()` runs; returned. -/
inductive MainPc where
  | entry
  | rejected (e : Err)
  | accepted
  | returning
  | done
  deriving DecidableEq, Repr

/-- Where the goroutine of `go func(c, s)` stands: not started; before
`go func() { out <- s.Handler(conn) }()`; at `err := <-out`; after the
receive, before the `if err != nil`; at its return, where the deferred
function calls `s.delClient(c)`; after `delClient`, before the
`if err != nil` of the deferred function; ended. -/
inductive TaskPc where
  | idle
  | start
  | waiting
  | received (err : Option String)
  | deferred
  | released (e : Option Err)
  | done
  deriving DecidableEq, Repr

/-- Where the goroutine of `go func() { out <- s.Handler(conn) }()` stands:
not started; before the call of the handler; inside the handler; at the send
`out <- result` on the unbuffered channel; ended. -/
inductive HandlerPc where
  | idle
  | start
  | running
  | sending (err : Option String)
  | done
  deriving DecidableEq, Repr

/-- A state of the three activities: the bookkeeping state they share, where
each of them stands, and the events so far, the oldest first. -/
structure Config where
  svc : Service
  main : MainPc
  task : TaskPc
  handler : HandlerPc
  trace : List Event
  deriving DecidableEq

/-- The state in which `handleConnection(conn)` is entered. -/
def init (s : Service) : Config :=
  { svc := s, main := .entry, task := .idle, handler := .idle, trace := [] }

/-- One step of `handleConnection` itself; `none` when it has returned. -/
def stepMain (resolve : Resolver) (conn : Conn) (cfg : Config) : Option Config :=
  match cfg.main with
  | .entry =>
    -- err := s.addClient(conn)
    let r := addClient resolve cfg.svc conn
    some { cfg with
      svc := r.2
      main := (match r.1 with
        | some e => .rejected e
        | none => .accepted)
      trace := cfg.trace ++ [.addClient conn r.1] }
  | .rejected e =>
    -- conn.Write([]byte(err.Error())); return
    some { cfg with main := .returning, trace := cfg.trace ++ [.write conn e.Error] }
  | .accepted =>
    -- go func(c net.Conn, s *Service) { ... }(conn, s)
    some { cfg with main := .returning, task := .start, trace := cfg.trace ++ [.goTask conn] }
  | .returning =>
    -- defer conn.Close()
    some { cfg with main := .done, trace := cfg.trace ++ [.close conn] }
  | .done => none

/-- One step of the goroutine of `go func(c, s)`; `none` when it is not
started, has ended, or waits at `<-out` with no sender. -/
def stepTask (resolve : Resolver) (conn : Conn) (cfg : Config) : Option Config :=
  match cfg.task with
  | .idle => none
  | .start =>
    -- out := make(chan error); go func() { out <- s.Handler(conn) }()
    some { cfg with task := .waiting, handler := .start, trace := cfg.trace ++ [.goHandler conn] }
  | .waiting =>
    -- err := <-out
    match cfg.handler with
    | .sending r =>
      some { cfg with task := .received r, handler := .done, trace := cfg.trace ++ [.receive r] }
    | _ => none
  | .received r =>
    -- if err != nil { log.Println("client failed:", err) }
    match r with
    | some e =>
      some { cfg with task := .deferred, trace := cfg.trace ++ [.log ("client failed: " ++ e)] }
    | none => some { cfg with task := .deferred }
  | .deferred =>
    -- err = s.delClient(c)
    let r := delClient resolve cfg.svc conn
    some { cfg with svc := r.2, task := .released r.1, trace := cfg.trace ++ [.delClient conn r.1] }
  | .released e =>
    -- if err != nil { log.Println(err) }
    match e with
    | some e => some { cfg with task := .done, trace := cfg.trace ++ [.log e.Error] }
    | none => some { cfg with task := .done }
  | .done => none

/-- One step of the goroutine that runs the handler, whose result is
`result`; `none` when it is not started, has ended, or waits at the send
`out <- result` for the receive, which is a step of `stepTask`. -/
def stepHandler (conn : Conn) (result : Option String) (cfg : Config) : Option Config :=
  match cfg.handler with
  | .idle => none
  | .start => some { cfg with handler := .running, trace := cfg.trace ++ [.handlerCall conn] }
  | .running =>
    some { cfg with handler := .sending result, trace := cfg.trace ++ [.handlerReturn conn result] }
  | .sending _ => none
  | .done => none

/-- One step of the activity `t`. -/
def step (resolve : Resolver) (conn : Conn) (result : Option String) :
    Tid → Config → Option Config
  | .main => stepMain resolve conn
  | .task => stepTask resolve conn
  | .handler => stepHandler conn result

/-- The state after the activities took steps in the order `sched`; `none`
when that order asks a step of an activity that cannot take one. -/
def exec (resolve : Resolver) (conn : Conn) (result : Option String) :
    List Tid → Config → Option Config
  | [], cfg => some cfg
  | t :: sched, cfg =>
    match step resolve conn result t cfg with
    | some cfg1 => exec resolve conn result sched cfg1
    | none => none

/-- The event is a call of `delClient`. -/
def Event.isDelClient : Event → Bool
  | .delClient _ _ => true
  | _ => false

/-- The goroutine of `go func(c, s)` is past its receive `err := <-out`. -/
def TaskPc.pastReceive : TaskPc → Bool
  | .received _ => true
  | .deferred => true
  | .released _ => true
  | .done => true
  | _ => false

/-- The goroutine of `go func(c, s)` is past its call of `delClient`. -/
def TaskPc.pastRelease : TaskPc → Bool
  | .released _ => true
  | .done => true
  | _ => false

/-- Steps that `handleConnection` still has to take. -/
def MainPc.left : MainPc → Nat
  | .entry => 3
  | .rejected _ => 2
  | .accepted => 2
  | .returning => 1
  | .done => 0

/-- Steps that the goroutine of `go func(c, s)` still has to take. -/
def TaskPc.left : TaskPc → Nat
  | .idle => 5
  | .start => 5
  | .waiting => 4
  | .received _ => 3
  | .deferred => 2
  | .released _ => 1
  | .done => 0

/-- Steps that the goroutine of the handler still has to take. -/
def HandlerPc.left : HandlerPc → Nat
  | .idle => 2
  | .start => 2
  | .running => 1
  | .sending _ => 0
  | .done => 0

/-- Steps that the three activities together still have to take. -/
def Config.left (cfg : Config) : Nat := cfg.main.left + cfg.task.left + cfg.handler.left

/-- What holds in every state of a `handleConnection(conn)` entered in state
`s`, when `addClient` admits `conn` in `s` and the handler returns `result`. -/
structure Inv (resolve : Resolver) (s : Service) (conn : Conn) (result : Option String)
    (cfg : Config) : Prop where
  entry_svc : cfg.main = .entry → cfg.svc = s
  not_rejected : ∀ e, cfg.main ≠ .rejected e
  idle_iff : cfg.task = .idle ↔ (cfg.main = .entry ∨ cfg.main = .accepted)
  handler_idle : (cfg.task = .idle ∨ cfg.task = .start) → cfg.handler = .idle
  handler_wait : cfg.task = .waiting →
    (cfg.handler = .start ∨ cfg.handler = .running ∨ cfg.handler = .sending result)
  handler_done : cfg.task.pastReceive = true → cfg.handler = .done
  returned : (cfg.handler = .sending result ∨ cfg.handler = .done) →
    Event.handlerReturn conn result ∈ cfg.trace
  count : (cfg.trace.filter Event.isDelClient).length = if cfg.task.pastRelease then 1 else 0
  order : ∀ pre post e, cfg.trace = pre ++ Event.delClient conn e :: post →
    Event.handlerReturn conn result ∈ pre ∧ e = none
  svc_mid : cfg.main ≠ .entry → cfg.task.pastRelease = false →
    cfg.svc = (addClient resolve s conn).2
  svc_end : cfg.task.pastRelease = true →
    cfg.svc = (delClient resolve (addClient resolve s conn).2 conn).2

/-- The events of a `handleConnection(conn)` whose `addClient` returns the
error `e`, in their order. -/
def rejectedTrace (conn : Conn) (e : Err) : List Event :=
  [.addClient conn (some e), .write conn e.Error, .close conn]

/-- Where `handleConnection` stands after `k` steps when `addClient` returns
the error `e`. -/
def rejectedMain (e : Err) : Nat → MainPc
  | 0 => .entry
  | 1 => .rejected e
  | 2 => .returning
  | _ => .done

/-- What holds after `k` steps of a `handleConnection(conn)` entered in state
`s`, when `addClient` returns the error `e` for `conn` in `s`. -/
structure Rejecting (s : Service) (conn : Conn) (e : Err) (k : Nat) (cfg : Config) : Prop where
  le : k ≤ 3
  svc : cfg.svc = s
  main : cfg.main = rejectedMain e k
  task : cfg.task = .idle
  handler : cfg.handler = .idle
  trace : cfg.trace = (rejectedTrace conn e).take k

end handleConnection

/-! ## `addClient` and `delClient` call by call -/

namespace Interleaving

/-- The memory that an `addClient` in the accept loop and a `delClient` in the
goroutine of a connection share: the fields of the service, where the outer
registry holds for each IP the address of its inner `*dict.Dict`, and the
inner registries that exist, by address. -/
structure Shared where
  MaxConnections : Int
  MaxConnectionsPerIP : Int
  connections : Data Nat
  dicts : List (Data Conn)
  connectionCount : Int
  countInt64 : minInt64 ≤ connectionCount ∧ connectionCount ≤ maxInt64
  deriving DecidableEq

/-- The inner registry at an address. -/
def Shared.deref (sh : Shared) (p : Nat) : Data Conn := sh.dicts.getD p Data.empty

/-- The bookkeeping state that the memory stands for: each address in the
outer registry replaced by the inner registry at that address. -/
def Shared.view (sh : Shared) : Service :=
  { MaxConnections := sh.MaxConnections
    MaxConnectionsPerIP := sh.MaxConnectionsPerIP
    connections := sh.connections.mapVal sh.deref
    connectionCount := sh.connectionCount
    countInt64 := sh.countInt64 }

/-- Every address in the outer registry is that of an inner registry that
exists, and no two IPs have the same one. -/
def Shared.WF (sh : Shared) : Prop :=
  (∀ ip p, sh.connections.lookup ip = some p → p < sh.dicts.length) ∧
  (∀ ip1 ip2 p, sh.connections.lookup ip1 = some p → sh.connections.lookup ip2 = some p →
    ip1 = ip2)

/-- Two bookkeeping states with the same limits, the same count and, for
every IP, the same inner registry or none. -/
def SameState (a b : Service) : Prop :=
  a.MaxConnections = b.MaxConnections ∧ a.MaxConnectionsPerIP = b.MaxConnectionsPerIP ∧
  a.connectionCount = b.connectionCount ∧
  ∀ ip, a.connections.lookup ip = b.connections.lookup ip

/-- Where an `addClient(conn)` stands: before the check of the global limit;
before `s.connections.Get(ip)`; before `s.connections.Set(ip, conns)` with the
registry it created; before the check of the per-IP limit with
`len(curConns.Map())`; before `curConns.Set(remote, conn)`; before
`atomic.AddInt64(&s.connectionCount, 1)`; returned. -/
inductive AddPc where
  | entry
  | get (ip : String)
  | set (ip : String) (conns : Nat)
  | len (ip : String) (curConns : Nat)
  | setConn (curConns : Nat)
  | count
  | returned (err : Option Err)
  deriving DecidableEq, Repr

/-- Where a `delClient(conn)` stands: before `s.connections.Get(ip)`; before
`conns.Del(remote)`; before `len(conns.Map()) == 0`; before
`s.connections.Del(ip)`; before `s.connectionCount--`; returned. -/
inductive DelPc where
  | entry
  | del (ip : String) (conns : Nat)
  | len (ip : String) (conns : Nat)
  | delIP (ip : String)
  | count
  | returned (err : Option Err)
  deriving DecidableEq, Repr

/-- The two activities. -/
inductive Who where
  | add
  | del
  deriving DecidableEq, Repr

/-- A state of an `addClient` and a `delClient` that run at the same time. -/
structure Config where
  shared : Shared
  add : AddPc
  del : DelPc
  deriving DecidableEq

/-- Both calls about to start on the memory `sh`. -/
def start (sh : Shared) : Config := { shared := sh, add := .entry, del := .entry }

/-- One step of `addClient(conn)`: up to and including its next read or
write of the shared memory, each call of a registry method and each update of
the count being one step. -/
def stepAddClient (resolve : Resolver) (conn : Conn) (cfg : Config) : Option Config :=
  let sh := cfg.shared
  match cfg.add with
  | .entry =>
    -- check max connections, then obtain net.Addr from conn
    if 0 < sh.MaxConnections ∧ sh.MaxConnections ≤ sh.connectionCount then
      some { cfg with add := .returned (some .errTooManyConnections) }
    else
      match resolve conn.network conn.remote with
      | .error e => some { cfg with add := .returned (some (.resolveErr e)) }
      | .ok ip => some { cfg with add := .get ip }
  | .get ip =>
    -- conns, found := s.connections.Get(ip); if !found { conns = dict.New(nil)
    match sh.connections.lookup ip with
    | some conns => some { cfg with add := .len ip conns }
    | none =>
      some { cfg with
        shared := { sh with dicts := sh.dicts ++ [Data.empty] }
        add := .set ip sh.dicts.length }
  | .set ip conns =>
    -- s.connections.Set(ip, conns)
    some { cfg with
      shared := { sh with connections := sh.connections.assign ip conns }
      add := .len ip conns }
  | .len _ curConns =>
    -- check max connections per IP
    if 0 < sh.MaxConnectionsPerIP ∧
        sh.MaxConnectionsPerIP ≤ ((sh.deref curConns).copy.len : Int) then
      some { cfg with add := .returned (some .errTooManyConnectionsPerIP) }
    else some { cfg with add := .setConn curConns }
  | .setConn curConns =>
    -- curConns.Set(conn.RemoteAddr().String(), conn)
    some { cfg with
      shared := { sh with
        dicts := sh.dicts.set curConns ((sh.deref curConns).assign conn.remote conn) }
      add := .count }
  | .count =>
    -- atomic.AddInt64(&s.connectionCount, 1)
    some { cfg with
      shared := { sh with
        connectionCount := wrap64 (sh.connectionCount + 1)
        countInt64 := wrap64_range _ }
      add := .returned none }
  | .returned _ => none

/-- One step of `delClient(conn)`, in the same way. -/
def stepDelClient (resolve : Resolver) (conn : Conn) (cfg : Config) : Option Config :=
  let sh := cfg.shared
  match cfg.del with
  | .entry =>
    -- obtain net.Addr from conn, then conns, found := s.connections.Get(ip)
    match resolve conn.network conn.remote with
    | .error e => some { cfg with del := .returned (some (.resolveErr e)) }
    | .ok ip =>
      match sh.connections.lookup ip with
      | none =>
        some { cfg with
          del := .returned (some (.errorsNew ("no connections from this IP: " ++ ip))) }
      | some conns => some { cfg with del := .del ip conns }
  | .del ip conns =>
    -- conns.(*dict.Dict).Del(conn.RemoteAddr().String())
    some { cfg with
      shared := { sh with dicts := sh.dicts.set conns ((sh.deref conns).delete conn.remote) }
      del := .len ip conns }
  | .len ip conns =>
    -- if len(conns.(*dict.Dict).Map()) == 0
    if (sh.deref conns).copy.len = 0 then some { cfg with del := .delIP ip }
    else some { cfg with del := .count }
  | .delIP ip =>
    -- s.connections.Del(ip)
    some { cfg with
      shared := { sh with connections := sh.connections.delete ip }
      del := .count }
  | .count =>
    -- s.connectionCount--
    some { cfg with
      shared := { sh with
        connectionCount := wrap64 (sh.connectionCount - 1)
        countInt64 := wrap64_range _ }
      del := .returned none }
  | .returned _ => none

/-- One step of the activity `w`, for an `addClient(cAdd)` and a
`delClient(cDel)`. -/
def step (resolve : Resolver) (cAdd cDel : Conn) : Who → Config → Option Config
  | .add => stepAddClient resolve cAdd
  | .del => stepDelClient resolve cDel

/-- The state after the two activities took steps in the order `sched`;
`none` when that order asks a step of an activity that has returned. -/
def exec (resolve : Resolver) (cAdd cDel : Conn) : List Who → Config → Option Config
  | [], cfg => some cfg
  | w :: sched, cfg =>
    match step resolve cAdd cDel w cfg with
    | some cfg1 => exec resolve cAdd cDel sched cfg1
    | none => none

end Interleaving

/-! ## Data for the examples -/

/-- A resolver for the examples: four literal endpoints of two hosts, and an
error for every other address. -/
def resolveLit : Resolver
  | _, "10.0.0.1:1000" => .ok "10.0.0.1"
  | _, "10.0.0.1:2000" => .ok "10.0.0.1"
  | _, "10.0.0.2:1000" => .ok "10.0.0.2"
  | _, "10.0.0.2:2000" => .ok "10.0.0.2"
  | _, a => .error ("address " ++ a ++ ": missing port in address")

def cA1 : Conn := ⟨1, "tcp", "10.0.0.1:1000"⟩
def cA2 : Conn := ⟨2, "tcp", "10.0.0.1:2000"⟩
def cB1 : Conn := ⟨3, "tcp", "10.0.0.2:1000"⟩

/-- A second connection with the remote endpoint of `cA1`. -/
def cA1bis : Conn := ⟨4, "tcp", "10.0.0.1:1000"⟩

/-- A later connection of the host of `cA1`. -/
def cA3 : Conn := ⟨5, "tcp", "10.0.0.1:2000"⟩

/-- A connection whose remote address does not resolve. -/
def cBad : Conn := ⟨6, "tcp", "bogus"⟩

/-- The state after `addClient(cA1)` on a service from `New`, with the count
at the least `int64`. -/
def atMin : Service :=
  { (addClient resolveLit New cA1).2 with
    connectionCount := minInt64
    countInt64 := by decide }

/-- A service from `New` with the count at the greatest `int64`. -/
def atMax : Service :=
  { New with
    connectionCount := maxInt64
    countInt64 := by decide }

/-- The shared memory of a service from `New` once `addClient(cA1)` has
returned: one inner registry, at address 0, that holds `cA1`. -/
def sharedA1 : Interleaving.Shared :=
  { MaxConnections := 0
    MaxConnectionsPerIP := 0
    connections := Data.empty.assign "10.0.0.1" 0
    dicts := [Data.empty.assign "10.0.0.1:1000" cA1]
    connectionCount := 1
    countInt64 := by decide }


/-! ## Facts about `Data` -/

namespace Data

variable {V : Type}

theorem lookupL_assignL_self (m : List (String × V)) (k : String) (v : V) :
    lookupL (assignL m k v) k = some v := by
  induction m with
  | nil => simp [assignL, lookupL]
  | cons p m ih =>
    obtain ⟨k', v'⟩ := p
    by_cases h : k' = k
    · simp [assignL, lookupL, h]
    · simp [assignL, lookupL, h, ih]

theorem lookupL_assignL_ne (m : List (String × V)) (k k' : String) (v : V) (h : k' ≠ k) :
    lookupL (assignL m k v) k' = lookupL m k' := by
  induction m with
  | nil => simp [assignL, lookupL, Ne.symm h]
  | cons p m ih =>
    obtain ⟨k0, v0⟩ := p
    by_cases h0 : k0 = k
    · subst h0
      simp [assignL, lookupL, Ne.symm h]
    · by_cases h1 : k0 = k'
      · subst h1
        simp [assignL, lookupL, h]
      · simp [assignL, lookupL, h0, h1, ih]

theorem lookupL_deleteL_self (m : List (String × V)) (k : String) :
    lookupL (deleteL m k) k = none := by
  induction m with
  | nil => simp [deleteL, lookupL]
  | cons p m ih =>
    obtain ⟨k', v'⟩ := p
    by_cases h : k' = k
    · simp [deleteL, h, ih]
    · simp [deleteL, lookupL, h, ih]

theorem lookupL_deleteL_ne (m : List (String × V)) (k k' : String) (h : k' ≠ k) :
    lookupL (deleteL m k) k' = lookupL m k' := by
  induction m with
  | nil => simp [deleteL, lookupL]
  | cons p m ih =>
    obtain ⟨k0, v0⟩ := p
    by_cases h0 : k0 = k
    · subst h0
      simp [deleteL, lookupL, Ne.symm h, ih]
    · by_cases h1 : k0 = k'
      · subst h1
        simp [deleteL, lookupL, h]
      · simp [deleteL, lookupL, h0, h1, ih]

theorem lookupL_eq_none_iff (m : List (String × V)) (k : String) :
    lookupL m k = none ↔ k ∉ m.map Prod.fst := by
  induction m with
  | nil => simp [lookupL]
  | cons p m ih =>
    obtain ⟨k', v'⟩ := p
    by_cases h : k' = k
    · simp [lookupL, h]
    · simp [lookupL, h, ih, Ne.symm h]

theorem assignL_of_not_mem (m : List (String × V)) (k : String) (v : V)
    (h : k ∉ m.map Prod.fst) : assignL m k v = m ++ [(k, v)] := by
  induction m with
  | nil => simp [assignL]
  | cons p m ih =>
    obtain ⟨k', v'⟩ := p
    simp only [List.map_cons, List.mem_cons, not_or] at h
    simp [assignL, Ne.symm h.1, ih h.2]

theorem deleteL_of_not_mem (m : List (String × V)) (k : String)
    (h : k ∉ m.map Prod.fst) : deleteL m k = m := by
  induction m with
  | nil => simp [deleteL]
  | cons p m ih =>
    obtain ⟨k', v'⟩ := p
    simp only [List.map_cons, List.mem_cons, not_or] at h
    simp [deleteL, Ne.symm h.1, ih h.2]

theorem length_assignL (m : List (String × V)) (k : String) (v : V) :
    (assignL m k v).length = if k ∈ m.map Prod.fst then m.length else m.length + 1 := by
  induction m with
  | nil => simp [assignL]
  | cons p m ih =>
    obtain ⟨k', v'⟩ := p
    by_cases h : k' = k
    · simp [assignL, h]
    · simp only [assignL, h, if_false, List.length_cons, ih, List.map_cons, List.mem_cons,
        Ne.symm h, false_or]
      split <;> rfl

theorem length_deleteL_le (m : List (String × V)) (k : String) :
    (deleteL m k).length ≤ m.length := by
  induction m with
  | nil => simp [deleteL]
  | cons p m ih =>
    obtain ⟨k', v'⟩ := p
    by_cases h : k' = k
    · simp only [deleteL, h, if_true, List.length_cons]; omega
    · simp only [deleteL, h, if_false, List.length_cons]; omega

@[simp] theorem lookup_empty (k : String) : (empty : Data V).lookup k = none := rfl

@[simp] theorem len_empty : (empty : Data V).len = 0 := rfl

@[simp] theorem lookup_assign_self (m : Data V) (k : String) (v : V) :
    (m.assign k v).lookup k = some v := lookupL_assignL_self m.entries k v

theorem lookup_assign_ne (m : Data V) (k k' : String) (v : V) (h : k' ≠ k) :
    (m.assign k v).lookup k' = m.lookup k' := lookupL_assignL_ne m.entries k k' v h

@[simp] theorem lookup_delete_self (m : Data V) (k : String) :
    (m.delete k).lookup k = none := lookupL_deleteL_self m.entries k

theorem lookup_delete_ne (m : Data V) (k k' : String) (h : k' ≠ k) :
    (m.delete k).lookup k' = m.lookup k' := lookupL_deleteL_ne m.entries k k' h

theorem lookup_eq_none_iff (m : Data V) (k : String) : m.lookup k = none ↔ k ∉ m.keys :=
  lookupL_eq_none_iff m.entries k

theorem len_assign (m : Data V) (k : String) (v : V) :
    (m.assign k v).len = if (m.lookup k).isSome then m.len else m.len + 1 := by
  unfold len assign lookup
  rw [length_assignL]
  by_cases h : k ∈ m.entries.map Prod.fst
  · have h1 : lookupL m.entries k ≠ none := fun h0 => (lookupL_eq_none_iff _ _).1 h0 h
    rw [if_pos h, if_pos (Option.isSome_iff_ne_none.2 h1)]
  · have h1 : lookupL m.entries k = none := (lookupL_eq_none_iff _ _).2 h
    rw [if_neg h, h1]
    rfl

theorem len_assign_le (m : Data V) (k : String) (v : V) : (m.assign k v).len ≤ m.len + 1 := by
  rw [len_assign]; split <;> omega

theorem len_delete_le (m : Data V) (k : String) : (m.delete k).len ≤ m.len :=
  length_deleteL_le m.entries k

theorem len_eq_zero_iff (m : Data V) : m.len = 0 ↔ ∀ k, m.lookup k = none := by
  obtain ⟨l, hl⟩ := m
  cases l with
  | nil => simp [len, lookup, lookupL]
  | cons p l =>
    obtain ⟨k', v'⟩ := p
    constructor
    · intro h
      simp [len] at h
    · intro h
      have := h k'
      simp [lookup, lookupL] at this

theorem len_ne_zero_of_lookup (m : Data V) (k : String) (v : V) (h : m.lookup k = some v) :
    m.len ≠ 0 := by
  intro h0
  rw [(len_eq_zero_iff m).1 h0 k] at h
  exact Option.noConfusion h

theorem delete_assign_of_lookup_none (m : Data V) (k : String) (v : V)
    (h : m.lookup k = none) : (m.assign k v).delete k = m := by
  apply ext
  have hk : k ∉ m.entries.map Prod.fst := (lookupL_eq_none_iff _ _).1 h
  show deleteL (assignL m.entries k v) k = m.entries
  rw [assignL_of_not_mem _ _ _ hk]
  have : ∀ l : List (String × V), k ∉ l.map Prod.fst → deleteL (l ++ [(k, v)]) k = l := by
    intro l
    induction l with
    | nil => intro _; simp [deleteL]
    | cons p l ih =>
      obtain ⟨k', v'⟩ := p
      intro hl
      simp only [List.map_cons, List.mem_cons, not_or] at hl
      simp [deleteL, Ne.symm hl.1, ih hl.2]
  exact this _ hk

theorem foldl_assign_entries (l : List (String × V)) :
    ∀ acc : Data V, ((acc.entries ++ l).map Prod.fst).Nodup →
      (l.foldl (fun out p => out.assign p.1 p.2) acc).entries = acc.entries ++ l := by
  induction l with
  | nil => intro acc _; simp
  | cons p l ih =>
    intro acc h
    have hp : p.1 ∉ acc.entries.map Prod.fst := by
      intro hmem
      rw [List.map_append, List.nodup_append] at h
      exact h.2.2 hmem (by simp)
    have hstep : (acc.assign p.1 p.2).entries = acc.entries ++ [p] := by
      show assignL acc.entries p.1 p.2 = _
      rw [assignL_of_not_mem _ _ _ hp]
    rw [List.foldl_cons, ih]
    · rw [hstep]; simp
    · rw [hstep]; simpa using h

@[simp] theorem copy_eq (m : Data V) : m.copy = m := by
  apply ext
  unfold copy
  rw [foldl_assign_entries]
  · rfl
  · simpa [empty] using m.nodup

theorem assignL_of_lookupL (m : List (String × V)) (k : String) (v : V)
    (h : lookupL m k = some v) : assignL m k v = m := by
  induction m with
  | nil => simp [lookupL] at h
  | cons p l ih =>
    obtain ⟨k0, v0⟩ := p
    by_cases h0 : k0 = k
    · subst h0
      simp only [lookupL, if_true, Option.some.injEq] at h
      simp [assignL, h]
    · simp only [lookupL, h0, if_false] at h
      simp [assignL, h0, ih h]

theorem assign_of_lookup (m : Data V) (k : String) (v : V) (h : m.lookup k = some v) :
    m.assign k v = m :=
  ext (assignL_of_lookupL m.entries k v h)

theorem lookupL_eq_some_iff (m : List (String × V)) (hm : (m.map Prod.fst).Nodup)
    (k : String) (v : V) : lookupL m k = some v ↔ (k, v) ∈ m := by
  induction m with
  | nil => simp [lookupL]
  | cons p l ih =>
    obtain ⟨k0, v0⟩ := p
    simp only [List.map_cons, List.nodup_cons] at hm
    by_cases h0 : k0 = k
    · subst h0
      simp only [lookupL, if_true, Option.some.injEq, List.mem_cons, Prod.mk.injEq, true_and]
      constructor
      · intro h; exact Or.inl h.symm
      · rintro (h | h)
        · exact h.symm
        · exact absurd (List.mem_map_of_mem Prod.fst h) hm.1
    · simp only [lookupL, h0, if_false, ih hm.2, List.mem_cons, Prod.mk.injEq]
      constructor
      · intro h; exact Or.inr h
      · rintro (h | h)
        · exact absurd h.1.symm h0
        · exact h

theorem lookupL_map {W : Type} (f : V → W) (l : List (String × V)) (k : String) :
    lookupL (l.map (fun p => (p.1, f p.2))) k = (lookupL l k).map f := by
  induction l with
  | nil => rfl
  | cons p l ih =>
    obtain ⟨k0, v0⟩ := p
    by_cases h0 : k0 = k
    · simp [lookupL, h0]
    · simp [lookupL, h0, ih]

theorem lookup_mapVal {W : Type} (f : V → W) (m : Data V) (k : String) :
    (m.mapVal f).lookup k = (m.lookup k).map f :=
  lookupL_map f m.entries k

theorem assign_assign (m : Data V) (k : String) (a b : V) :
    (m.assign k a).assign k b = m.assign k b := by
  apply ext
  show assignL (assignL m.entries k a) k b = assignL m.entries k b
  induction m.entries with
  | nil => simp [assignL]
  | cons p l ih =>
    obtain ⟨k', v'⟩ := p
    by_cases h : k' = k
    · simp [assignL, h]
    · simp [assignL, h, ih]

end Data

/-! ## Facts about `Dict`: a running registry answers with its `data` -/

namespace Dict

variable {V : Type}

theorem Get_running (m : Data V) (k : String) :
    (⟨m, false⟩ : Dict V).Get k = .ret (m.lookup k, (m.lookup k).isSome) := by
  unfold Get run
  cases h : m.lookup k <;> simp [h]

theorem Set_running (m : Data V) (k : String) (v : V) :
    (⟨m, false⟩ : Dict V).Set k v = .ret ⟨m.assign k v, false⟩ := rfl

theorem Del_running (m : Data V) (k : String) :
    (⟨m, false⟩ : Dict V).Del k = .ret ⟨m.delete k, false⟩ := rfl

theorem Map_running (m : Data V) : (⟨m, false⟩ : Dict V).Map = .ret m := by
  simp [Map, run]

theorem setAll_running (kvs : List (String × V)) : ∀ m : Data V,
    (⟨m, false⟩ : Dict V).setAll kvs =
      .ret ⟨kvs.foldl (fun out p => out.assign p.1 p.2) m, false⟩ := by
  induction kvs with
  | nil => intro m; rfl
  | cons p kvs ih =>
    intro m
    obtain ⟨k, v⟩ := p
    simp only [setAll, Set_running, List.foldl_cons]
    exact ih _

end Dict

/-! ## Facts about `wrap64` -/

theorem wrap64_of_range (x : Int) (h : minInt64 ≤ x ∧ x ≤ maxInt64) : wrap64 x = x := by
  unfold wrap64
  unfold minInt64 maxInt64 at h
  omega

theorem wrap64_add_sub (x : Int) (h : minInt64 ≤ x ∧ x ≤ maxInt64) :
    wrap64 (wrap64 (x + 1) - 1) = x := by
  unfold wrap64
  unfold minInt64 maxInt64 at h
  omega

theorem wrap64_max : wrap64 (maxInt64 + 1) = minInt64 := by decide

theorem wrap64_min : wrap64 (minInt64 - 1) = maxInt64 := by decide

/-! ## Facts about `addClient` and `delClient` -/

section Bookkeeping

variable (resolve : Resolver)

theorem addClient_global (s : Service) (c : Conn)
    (h : 0 < s.MaxConnections ∧ s.MaxConnections ≤ s.connectionCount) :
    addClient resolve s c = (some .errTooManyConnections, s) := by
  unfold addClient
  rw [if_pos h]

theorem addClient_unresolved (s : Service) (c : Conn) (e : String)
    (h : ¬ (0 < s.MaxConnections ∧ s.MaxConnections ≤ s.connectionCount))
    (hr : resolve c.network c.remote = .error e) :
    addClient resolve s c = (some (.resolveErr e), s) := by
  unfold addClient
  rw [if_neg h, hr]

theorem addClient_perIP (s : Service) (c : Conn) (ip : String)
    (h : ¬ (0 < s.MaxConnections ∧ s.MaxConnections ≤ s.connectionCount))
    (hr : resolve c.network c.remote = .ok ip)
    (hm : 0 < s.MaxConnectionsPerIP ∧ s.MaxConnectionsPerIP ≤ ((currentConns s ip).len : Int)) :
    addClient resolve s c = (some .errTooManyConnectionsPerIP, s) ∧
      s.connections.lookup ip ≠ none := by
  unfold addClient
  rw [if_neg h, hr]
  unfold currentConns at hm
  cases hl : s.connections.lookup ip with
  | none =>
    rw [hl] at hm
    simp only [Option.getD_none, Data.len_empty, Int.ofNat_zero] at hm
    omega
  | some conns =>
    rw [hl] at hm
    simp only [Option.getD_some] at hm
    simp only [hl, Data.copy_eq]
    rw [if_pos hm]
    simp

theorem addClient_ok (s : Service) (c : Conn) (ip : String)
    (h : ¬ (0 < s.MaxConnections ∧ s.MaxConnections ≤ s.connectionCount))
    (hr : resolve c.network c.remote = .ok ip)
    (hm : ¬ (0 < s.MaxConnectionsPerIP ∧
      s.MaxConnectionsPerIP ≤ ((currentConns s ip).len : Int))) :
    addClient resolve s c = (none, { s with
      connections := s.connections.assign ip ((currentConns s ip).assign c.remote c)
      connectionCount := wrap64 (s.connectionCount + 1)
      countInt64 := wrap64_range _ }) := by
  unfold addClient
  rw [if_neg h, hr]
  unfold currentConns at hm ⊢
  cases hl : s.connections.lookup ip with
  | none =>
    rw [hl] at hm
    simp only [Option.getD_none] at hm
    simp only [hl, Option.getD_none, Data.copy_eq]
    rw [if_neg hm, Data.assign_assign]
  | some conns =>
    rw [hl] at hm
    simp only [Option.getD_some] at hm
    simp only [hl, Option.getD_some, Data.copy_eq]
    rw [if_neg hm]

/-- The four ways `addClient` ends. -/
theorem addClient_cases (s : Service) (c : Conn) :
    addClient resolve s c = (some .errTooManyConnections, s) ∨
    (∃ e, addClient resolve s c = (some (.resolveErr e), s)) ∨
    addClient resolve s c = (some .errTooManyConnectionsPerIP, s) ∨
    (∃ ip, resolve c.network c.remote = .ok ip ∧
      ¬ (0 < s.MaxConnections ∧ s.MaxConnections ≤ s.connectionCount) ∧
      ¬ (0 < s.MaxConnectionsPerIP ∧
        s.MaxConnectionsPerIP ≤ ((currentConns s ip).len : Int)) ∧
      addClient resolve s c = (none, { s with
        connections := s.connections.assign ip ((currentConns s ip).assign c.remote c)
        connectionCount := wrap64 (s.connectionCount + 1)
        countInt64 := wrap64_range _ })) := by
  by_cases h : 0 < s.MaxConnections ∧ s.MaxConnections ≤ s.connectionCount
  · exact Or.inl (addClient_global resolve s c h)
  · cases hr : resolve c.network c.remote with
    | error e => exact Or.inr (Or.inl ⟨e, addClient_unresolved resolve s c e h hr⟩)
    | ok ip =>
      by_cases hm : 0 < s.MaxConnectionsPerIP ∧
          s.MaxConnectionsPerIP ≤ ((currentConns s ip).len : Int)
      · exact Or.inr (Or.inr (Or.inl (addClient_perIP resolve s c ip h hr hm).1))
      · exact Or.inr (Or.inr (Or.inr ⟨ip, rfl, h, hm, addClient_ok resolve s c ip h hr hm⟩))

theorem delClient_unresolved (s : Service) (c : Conn) (e : String)
    (hr : resolve c.network c.remote = .error e) :
    delClient resolve s c = (some (.resolveErr e), s) := by
  unfold delClient
  rw [hr]

theorem delClient_unknown (s : Service) (c : Conn) (ip : String)
    (hr : resolve c.network c.remote = .ok ip) (hl : s.connections.lookup ip = none) :
    delClient resolve s c = (some (.errorsNew ("no connections from this IP: " ++ ip)), s) := by
  unfold delClient
  rw [hr]
  simp only [hl]

theorem delClient_ok (s : Service) (c : Conn) (ip : String) (conns : Data Conn)
    (hr : resolve c.network c.remote = .ok ip) (hl : s.connections.lookup ip = some conns) :
    delClient resolve s c = (none, { s with
      connections :=
        if (conns.delete c.remote).len = 0 then
          (s.connections.assign ip (conns.delete c.remote)).delete ip
        else s.connections.assign ip (conns.delete c.remote)
      connectionCount := wrap64 (s.connectionCount - 1)
      countInt64 := wrap64_range _ }) := by
  unfold delClient
  rw [hr]
  simp only [hl, Data.copy_eq]

/-- The three ways `delClient` ends. -/
theorem delClient_cases (s : Service) (c : Conn) :
    (∃ e, delClient resolve s c = (some e, s)) ∨
    (∃ ip conns, resolve c.network c.remote = .ok ip ∧
      s.connections.lookup ip = some conns ∧
      delClient resolve s c = (none, { s with
        connections :=
          if (conns.delete c.remote).len = 0 then
            (s.connections.assign ip (conns.delete c.remote)).delete ip
          else s.connections.assign ip (conns.delete c.remote)
        connectionCount := wrap64 (s.connectionCount - 1)
        countInt64 := wrap64_range _ })) := by
  cases hr : resolve c.network c.remote with
  | error e => exact Or.inl ⟨_, delClient_unresolved resolve s c e hr⟩
  | ok ip =>
    cases hl : s.connections.lookup ip with
    | none => exact Or.inl ⟨_, delClient_unknown resolve s c ip hr hl⟩
    | some conns => exact Or.inr ⟨ip, conns, rfl, hl, delClient_ok resolve s c ip conns hr hl⟩

/-- The outer registry after a successful `delClient`, key by key. -/
theorem lookup_after_delete (outer : Data (Data Conn)) (ip : String) (conns1 : Data Conn)
    (x : String) :
    (if conns1.len = 0 then (outer.assign ip conns1).delete ip
      else outer.assign ip conns1).lookup x =
    if x = ip then (if conns1.len = 0 then none else some conns1) else outer.lookup x := by
  by_cases hx : x = ip
  · subst hx
    by_cases h0 : conns1.len = 0
    · simp [h0]
    · simp [h0]
  · by_cases h0 : conns1.len = 0
    · simp [h0, hx, Data.lookup_delete_ne _ _ _ hx, Data.lookup_assign_ne _ _ _ _ hx]
    · simp [h0, hx, Data.lookup_assign_ne _ _ _ _ hx]

theorem addClient_limits (s : Service) (c : Conn) :
    (addClient resolve s c).2.MaxConnections = s.MaxConnections ∧
    (addClient resolve s c).2.MaxConnectionsPerIP = s.MaxConnectionsPerIP := by
  rcases addClient_cases resolve s c with h | ⟨e, h⟩ | h | ⟨ip, _, _, _, h⟩ <;> rw [h] <;> simp

theorem delClient_limits (s : Service) (c : Conn) :
    (delClient resolve s c).2.MaxConnections = s.MaxConnections ∧
    (delClient resolve s c).2.MaxConnectionsPerIP = s.MaxConnectionsPerIP := by
  rcases delClient_cases resolve s c with ⟨e, h⟩ | ⟨ip, conns, _, _, h⟩ <;> rw [h] <;> simp

theorem apply_limits (s : Service) (op : Op) :
    (op.apply resolve s).2.MaxConnections = s.MaxConnections ∧
    (op.apply resolve s).2.MaxConnectionsPerIP = s.MaxConnectionsPerIP := by
  cases op with
  | add c => exact addClient_limits resolve s c
  | del c => exact delClient_limits resolve s c

theorem runOps_limits (ops : List Op) : ∀ s : Service,
    (runOps resolve s ops).MaxConnections = s.MaxConnections ∧
    (runOps resolve s ops).MaxConnectionsPerIP = s.MaxConnectionsPerIP := by
  induction ops with
  | nil => intro s; exact ⟨rfl, rfl⟩
  | cons op ops ih =>
    intro s
    have h1 := ih (op.apply resolve s).2
    have h2 := apply_limits resolve s op
    exact ⟨h1.1.trans h2.1, h1.2.trans h2.2⟩

/-- A property of states that `New` with any limits has and that every call
keeps holds after every sequence of calls. -/
theorem runOps_invariant (P : Service → Prop)
    (hstep : ∀ (s : Service) (op : Op), P s → P (op.apply resolve s).2) :
    ∀ (ops : List Op) (s : Service), P s → P (runOps resolve s ops) := by
  intro ops
  induction ops with
  | nil => intro s h; exact h
  | cons op ops ih => intro s h; exact ih _ (hstep s op h)

theorem wellKeyed_addClient (s : Service) (c : Conn) (h : WellKeyed resolve s) :
    WellKeyed resolve (addClient resolve s c).2 := by
  rcases addClient_cases resolve s c with h1 | ⟨e, h1⟩ | h1 | ⟨ip, hr, _, _, h1⟩
  · rw [h1]; exact h
  · rw [h1]; exact h
  · rw [h1]; exact h
  · rw [h1]
    intro ip' inner hl
    simp only at hl
    by_cases hip : ip' = ip
    · subst hip
      rw [Data.lookup_assign_self] at hl
      cases hl
      refine ⟨Data.len_ne_zero_of_lookup _ c.remote c (Data.lookup_assign_self _ _ _), ?_⟩
      intro key c' hk
      by_cases hkey : key = c.remote
      · subst hkey
        rw [Data.lookup_assign_self] at hk
        cases hk
        exact ⟨rfl, hr⟩
      · rw [Data.lookup_assign_ne _ _ _ _ hkey] at hk
        unfold currentConns at hk
        cases hl0 : s.connections.lookup ip' with
        | none => rw [hl0] at hk; simp at hk
        | some conns =>
          rw [hl0] at hk
          exact (h ip' conns hl0).2 key c' hk
    · rw [Data.lookup_assign_ne _ _ _ _ hip] at hl
      exact h ip' inner hl

theorem wellKeyed_delClient (s : Service) (c : Conn) (h : WellKeyed resolve s) :
    WellKeyed resolve (delClient resolve s c).2 := by
  rcases delClient_cases resolve s c with ⟨e, h1⟩ | ⟨ip, conns, hr, hl0, h1⟩
  · rw [h1]; exact h
  · rw [h1]
    intro ip' inner hl
    simp only at hl
    rw [lookup_after_delete] at hl
    by_cases hip : ip' = ip
    · subst hip
      rw [if_pos rfl] at hl
      by_cases h0 : (conns.delete c.remote).len = 0
      · rw [if_pos h0] at hl; cases hl
      · rw [if_neg h0] at hl
        cases hl
        refine ⟨h0, ?_⟩
        intro key c' hk
        by_cases hkey : key = c.remote
        · subst hkey
          rw [Data.lookup_delete_self] at hk
          cases hk
        · rw [Data.lookup_delete_ne _ _ _ hkey] at hk
          exact (h ip' conns hl0).2 key c' hk
    · rw [if_neg hip] at hl
      exact h ip' inner hl

theorem wellKeyed_configured (n m : Int) : WellKeyed resolve (configured n m) := by
  intro ip inner hl
  simp [configured, New] at hl

theorem wellKeyed_runOps (n m : Int) (ops : List Op) :
    WellKeyed resolve (runOps resolve (configured n m) ops) := by
  apply runOps_invariant resolve (WellKeyed resolve)
  · intro s op h
    cases op with
    | add c => exact wellKeyed_addClient resolve s c h
    | del c => exact wellKeyed_delClient resolve s c h
  · exact wellKeyed_configured resolve n m

theorem capped_addClient (s : Service) (c : Conn) (hm : 0 < s.MaxConnectionsPerIP)
    (h : Capped s) : Capped (addClient resolve s c).2 := by
  rcases addClient_cases resolve s c with h1 | ⟨e, h1⟩ | h1 | ⟨ip, hr, _, hcap, h1⟩
  · rw [h1]; exact h
  · rw [h1]; exact h
  · rw [h1]; exact h
  · rw [h1]
    intro ip' inner hl
    simp only at hl ⊢
    by_cases hip : ip' = ip
    · subst hip
      rw [Data.lookup_assign_self] at hl
      cases hl
      have hle := Data.len_assign_le (currentConns s ip') c.remote c
      have hlt : ((currentConns s ip').len : Int) < s.MaxConnectionsPerIP := by
        by_contra hcon
        exact hcap ⟨hm, not_lt.1 hcon⟩
      have : (((currentConns s ip').assign c.remote c).len : Int) ≤
          ((currentConns s ip').len : Int) + 1 := by exact_mod_cast hle
      omega
    · rw [Data.lookup_assign_ne _ _ _ _ hip] at hl
      exact h ip' inner hl

theorem capped_delClient (s : Service) (c : Conn) (h : Capped s) :
    Capped (delClient resolve s c).2 := by
  rcases delClient_cases resolve s c with ⟨e, h1⟩ | ⟨ip, conns, hr, hl0, h1⟩
  · rw [h1]; exact h
  · rw [h1]
    intro ip' inner hl
    simp only at hl ⊢
    rw [lookup_after_delete] at hl
    by_cases hip : ip' = ip
    · subst hip
      rw [if_pos rfl] at hl
      by_cases h0 : (conns.delete c.remote).len = 0
      · rw [if_pos h0] at hl; cases hl
      · rw [if_neg h0] at hl
        cases hl
        have h2 := h ip' conns hl0
        have h3 : ((conns.delete c.remote).len : Int) ≤ (conns.len : Int) := by
          exact_mod_cast Data.len_delete_le conns c.remote
        omega
    · rw [if_neg hip] at hl
      exact h ip' inner hl

theorem capped_runOps (n m : Int) (hm : 0 < m) (ops : List Op) :
    Capped (runOps resolve (configured n m) ops) := by
  have key : ∀ (ops : List Op) (s : Service),
      (Capped s ∧ s.MaxConnectionsPerIP = m) →
      (Capped (runOps resolve s ops) ∧ (runOps resolve s ops).MaxConnectionsPerIP = m) := by
    apply runOps_invariant resolve (fun s => Capped s ∧ s.MaxConnectionsPerIP = m)
    intro s op ⟨h, hcfg⟩
    refine ⟨?_, (apply_limits resolve s op).2.trans hcfg⟩
    cases op with
    | add c => exact capped_addClient resolve s c (hcfg ▸ hm) h
    | del c => exact capped_delClient resolve s c h
  refine (key ops (configured n m) ⟨?_, rfl⟩).1
  intro ip inner hl
  simp [configured, New] at hl

/-- Admitting a list of resolvable connections, one after the other, while the
global limit leaves room for all of them and there is no per-IP limit. -/
theorem addClient_all (n : Int) (hmax : n ≤ maxInt64) (cs : List Conn) : ∀ s : Service,
    s.MaxConnections = n → s.MaxConnectionsPerIP ≤ 0 →
    s.connectionCount + (cs.length : Int) ≤ n →
    (∀ c ∈ cs, ∃ ip, resolve c.network c.remote = .ok ip) →
    (runOps resolve s (cs.map Op.add)).connectionCount =
        s.connectionCount + (cs.length : Int) ∧
      (∀ r ∈ runResults resolve s (cs.map Op.add), r = none) ∧
      (∀ ip, s.connections.lookup ip ≠ none →
        (runOps resolve s (cs.map Op.add)).connections.lookup ip ≠ none) ∧
      (∀ c ∈ cs, ∀ ip, resolve c.network c.remote = .ok ip →
        (runOps resolve s (cs.map Op.add)).connections.lookup ip ≠ none) := by
  induction cs with
  | nil =>
    intro s _ _ _ _
    simp [runOps, runResults]
  | cons c cs ih =>
    intro s hn hp hroom hres
    obtain ⟨ip, hr⟩ := hres c (List.mem_cons_self c cs)
    have hlen : ((c :: cs).length : Int) = (cs.length : Int) + 1 := by
      simp [List.length_cons]
    have hg : ¬ (0 < s.MaxConnections ∧ s.MaxConnections ≤ s.connectionCount) := by
      rintro ⟨_, h2⟩
      have : (0 : Int) ≤ (cs.length : Int) := Int.natCast_nonneg _
      omega
    have hcap : ¬ (0 < s.MaxConnectionsPerIP ∧
        s.MaxConnectionsPerIP ≤ ((currentConns s ip).len : Int)) := by
      rintro ⟨h1, _⟩; omega
    have hok := addClient_ok resolve s c ip hg hr hcap
    have hlim := addClient_limits resolve s c
    have hcnt : (addClient resolve s c).2.connectionCount = s.connectionCount + 1 := by
      rw [hok]
      have hmin := s.countInt64.1
      have hnn : (0 : Int) ≤ (cs.length : Int) := Int.natCast_nonneg _
      refine wrap64_of_range _ ⟨?_, by omega⟩
      unfold minInt64 at hmin ⊢
      omega
    have hkeep : ∀ ip', s.connections.lookup ip' ≠ none →
        (addClient resolve s c).2.connections.lookup ip' ≠ none := by
      intro ip' hne
      rw [hok]
      by_cases hip : ip' = ip
      · subst hip; simp
      · simp only; rw [Data.lookup_assign_ne _ _ _ _ hip]; exact hne
    have hnew : (addClient resolve s c).2.connections.lookup ip ≠ none := by
      rw [hok]; simp
    obtain ⟨i1, i2, i3, i4⟩ := ih (addClient resolve s c).2 (hlim.1.trans hn)
      (by rw [hlim.2]; exact hp) (by rw [hcnt]; omega)
      (fun c' hc' => hres c' (List.mem_cons_of_mem c hc'))
    simp only [List.map_cons, runOps, runResults, Op.apply]
    refine ⟨?_, ?_, ?_, ?_⟩
    · rw [i1, hcnt]; omega
    · intro r hr'
      rw [List.mem_cons] at hr'
      rcases hr' with hr' | hr'
      · rw [hr', hok]
      · exact i2 r hr'
    · intro ip' hne
      exact i3 ip' (hkeep ip' hne)
    · intro c' hc' ip' hr'
      rw [List.mem_cons] at hc'
      rcases hc' with hc' | hc'
      · subst hc'
        have : ip' = ip := by
          rw [hr] at hr'
          exact (Except.ok.inj hr').symm
        subst this
        exact i3 ip' hnew
      · exact i4 c' hc' ip' hr'

theorem addClient_error_state (s : Service) (c : Conn) (e : Err)
    (h : (addClient resolve s c).1 = some e) : (addClient resolve s c).2 = s := by
  rcases addClient_cases resolve s c with h1 | ⟨e1, h1⟩ | h1 | ⟨ip, _, _, _, h1⟩
  · rw [h1]
  · rw [h1]
  · rw [h1]
  · rw [h1] at h; cases h

/-- A `delClient` right after the `addClient` that admitted the connection
returns `nil` and gives the count its value from before the `addClient`. -/
theorem delClient_after_addClient (s : Service) (c : Conn)
    (h : (addClient resolve s c).1 = none) :
    (delClient resolve (addClient resolve s c).2 c).1 = none ∧
    (delClient resolve (addClient resolve s c).2 c).2.connectionCount = s.connectionCount := by
  rcases addClient_cases resolve s c with h1 | ⟨e, h1⟩ | h1 | ⟨ip, hr, _, _, h1⟩
  · rw [h1] at h; cases h
  · rw [h1] at h; cases h
  · rw [h1] at h; cases h
  · rw [h1]
    rw [delClient_ok resolve _ c ip ((currentConns s ip).assign c.remote c) hr (by simp)]
    exact ⟨rfl, wrap64_add_sub _ s.countInt64⟩

end Bookkeeping

/-! ## Facts about `handleConnection` -/

namespace handleConnection

theorem snoc_eq_append_cons {α : Type} (tr pre post : List α) (x y : α)
    (h : tr ++ [x] = pre ++ y :: post) :
    (post = [] ∧ tr = pre ∧ x = y) ∨ ∃ post1, post = post1 ++ [x] ∧ tr = pre ++ y :: post1 := by
  rcases List.eq_nil_or_concat post with hp | ⟨post1, z, hp⟩
  · subst hp
    have h1 := List.append_inj' h rfl
    exact Or.inl ⟨rfl, h1.1, by simpa using h1.2⟩
  · subst hp
    have h2 : tr ++ [x] = (pre ++ y :: post1) ++ [z] := by simpa using h
    have h1 := List.append_inj' h2 rfl
    have hz : x = z := by simpa using h1.2
    subst hz
    exact Or.inr ⟨post1, by simp, h1.1⟩

theorem order_snoc (conn : Conn) (result : Option String) (tr : List Event) (x : Event)
    (h : ∀ pre post e, tr = pre ++ Event.delClient conn e :: post →
      Event.handlerReturn conn result ∈ pre ∧ e = none)
    (hx : ∀ e, x = Event.delClient conn e →
      Event.handlerReturn conn result ∈ tr ∧ e = none) :
    ∀ pre post e, tr ++ [x] = pre ++ Event.delClient conn e :: post →
      Event.handlerReturn conn result ∈ pre ∧ e = none := by
  intro pre post e heq
  rcases snoc_eq_append_cons tr pre post x _ heq with ⟨_, h1, h2⟩ | ⟨post1, _, h1⟩
  · subst h1
    exact hx e h2
  · exact h pre post1 e h1

theorem count_snoc (tr : List Event) (x : Event) :
    ((tr ++ [x]).filter Event.isDelClient).length =
      (tr.filter Event.isDelClient).length + if x.isDelClient then 1 else 0 := by
  rw [List.filter_append, List.length_append]
  cases h : x.isDelClient <;> simp [List.filter, h]

theorem inv_init (resolve : Resolver) (s : Service) (conn : Conn) (result : Option String) :
    Inv resolve s conn result (init s) where
  entry_svc := fun _ => rfl
  not_rejected := by intro e h; cases h
  idle_iff := by simp [init]
  handler_idle := fun _ => rfl
  handler_wait := by intro h; cases h
  handler_done := by intro h; cases h
  returned := by rintro (h | h) <;> cases h
  count := by simp [init, TaskPc.pastRelease]
  order := by
    intro pre post e h
    simp [init] at h
  svc_mid := by intro h; exact absurd rfl h
  svc_end := by intro h; simp [init, TaskPc.pastRelease] at h

theorem inv_stepMain (resolve : Resolver) (s : Service) (conn : Conn) (result : Option String)
    (hadm : (addClient resolve s conn).1 = none) (cfg cfg1 : Config)
    (h : Inv resolve s conn result cfg) (hs : stepMain resolve conn cfg = some cfg1) :
    Inv resolve s conn result cfg1 ∧ cfg1.left + 1 = cfg.left := by
  obtain ⟨h1, h2, h3, h4, h5, h6, h7, h8, h9, h10, h11⟩ := h
  unfold stepMain at hs
  cases hm : cfg.main with
  | entry =>
    rw [hm] at hs
    simp only [Option.some.injEq] at hs
    subst hs
    have hsvc := h1 hm
    have ht := h3.2 (Or.inl hm)
    have hh := h4 (Or.inl ht)
    rw [hsvc, hadm]
    refine ⟨⟨?_, ?_, ?_, ?_, ?_, ?_, ?_, ?_, ?_, ?_, ?_⟩, ?_⟩
    · intro h; cases h
    · intro e h; cases h
    · simp [ht]
    · intro _; exact hh
    · intro h; simp [ht] at h
    · intro h; simp [ht, TaskPc.pastReceive] at h
    · intro h; simp [hh] at h
    · simp only [count_snoc, h8, Event.isDelClient]; simp
    · exact order_snoc conn result _ _ h9 (by intro e h; cases h)
    · intro _ _; rfl
    · intro hpr; simp [ht, TaskPc.pastRelease] at hpr
    · simp [Config.left, hm, MainPc.left]; omega
  | rejected e => exact absurd hm (h2 e)
  | accepted =>
    rw [hm] at hs
    simp only [Option.some.injEq] at hs
    subst hs
    have ht := h3.2 (Or.inr hm)
    have hh := h4 (Or.inl ht)
    refine ⟨⟨?_, ?_, ?_, ?_, ?_, ?_, ?_, ?_, ?_, ?_, ?_⟩, ?_⟩
    · intro h; cases h
    · intro e h; cases h
    · simp
    · intro _; exact hh
    · intro h; cases h
    · intro h; simp [TaskPc.pastReceive] at h
    · intro h; simp [hh] at h
    · simp only [count_snoc, h8, Event.isDelClient]; simp [ht, TaskPc.pastRelease]
    · exact order_snoc conn result _ _ h9 (by intro e h; cases h)
    · intro _ _; exact h10 (by rw [hm]; intro h; cases h) (by rw [ht]; rfl)
    · intro hpr; simp [TaskPc.pastRelease] at hpr
    · simp [Config.left, hm, ht, MainPc.left, TaskPc.left]; omega
  | returning =>
    rw [hm] at hs
    simp only [Option.some.injEq] at hs
    subst hs
    have ht : cfg.task ≠ .idle := by
      intro h; rcases h3.1 h with h | h <;> rw [hm] at h <;> cases h
    refine ⟨⟨?_, ?_, ?_, ?_, ?_, ?_, ?_, ?_, ?_, ?_, ?_⟩, ?_⟩
    · intro h; cases h
    · intro e h; cases h
    · simp [ht]
    · exact h4
    · exact h5
    · exact h6
    · intro h; simp [h7 h]
    · simp only [count_snoc, h8, Event.isDelClient]; simp
    · exact order_snoc conn result _ _ h9 (by intro e h; cases h)
    · intro _ hpr; exact h10 (by rw [hm]; intro h; cases h) hpr
    · exact h11
    · simp [Config.left, hm, MainPc.left]; omega
  | done =>
    rw [hm] at hs
    cases hs

theorem inv_stepTask (resolve : Resolver) (s : Service) (conn : Conn) (result : Option String)
    (hadm : (addClient resolve s conn).1 = none) (cfg cfg1 : Config)
    (h : Inv resolve s conn result cfg) (hs : stepTask resolve conn cfg = some cfg1) :
    Inv resolve s conn result cfg1 ∧ cfg1.left + 1 = cfg.left := by
  obtain ⟨h1, h2, h3, h4, h5, h6, h7, h8, h9, h10, h11⟩ := h
  unfold stepTask at hs
  cases ht : cfg.task with
  | idle => rw [ht] at hs; cases hs
  | start =>
    rw [ht] at hs
    simp only [Option.some.injEq] at hs
    subst hs
    have hh := h4 (Or.inr ht)
    have hm : cfg.main ≠ .entry ∧ cfg.main ≠ .accepted := by
      constructor <;> intro hm
      · rw [h3.2 (Or.inl hm)] at ht; cases ht
      · rw [h3.2 (Or.inr hm)] at ht; cases ht
    refine ⟨⟨?_, h2, ?_, ?_, ?_, ?_, ?_, ?_, ?_, ?_, ?_⟩, ?_⟩
    · intro h; exact absurd h hm.1
    · simp [hm.1, hm.2]
    · intro h; simp at h
    · intro _; exact Or.inl rfl
    · intro h; simp [TaskPc.pastReceive] at h
    · intro h; simp at h
    · simp only [count_snoc, h8, Event.isDelClient]; simp [ht, TaskPc.pastRelease]
    · exact order_snoc conn result _ _ h9 (by intro e h; cases h)
    · intro hne _; exact h10 hne (by rw [ht]; rfl)
    · intro hpr; simp [TaskPc.pastRelease] at hpr
    · simp [Config.left, ht, hh, TaskPc.left, HandlerPc.left]
  | waiting =>
    rw [ht] at hs
    have hm : cfg.main ≠ .entry ∧ cfg.main ≠ .accepted := by
      constructor <;> intro hm
      · rw [h3.2 (Or.inl hm)] at ht; cases ht
      · rw [h3.2 (Or.inr hm)] at ht; cases ht
    cases hh : cfg.handler with
    | sending r =>
      rw [hh] at hs
      simp only [Option.some.injEq] at hs
      subst hs
      have hr : result = r := by
        rcases h5 ht with h | h | h <;> rw [hh] at h <;> cases h
        rfl
      subst hr
      refine ⟨⟨?_, h2, ?_, ?_, ?_, ?_, ?_, ?_, ?_, ?_, ?_⟩, ?_⟩
      · intro h; exact absurd h hm.1
      · simp [hm.1, hm.2]
      · intro h; simp at h
      · intro h; simp at h
      · intro _; rfl
      · intro _
        exact List.mem_append_left _ (h7 (Or.inl hh))
      · simp only [count_snoc, h8, Event.isDelClient]; simp [ht, TaskPc.pastRelease]
      · exact order_snoc conn result _ _ h9 (by intro e h; cases h)
      · intro hne _; exact h10 hne (by rw [ht]; rfl)
      · intro hpr; simp [TaskPc.pastRelease] at hpr
      · simp [Config.left, ht, hh, TaskPc.left, HandlerPc.left]
    | idle => rw [hh] at hs; cases hs
    | start => rw [hh] at hs; cases hs
    | running => rw [hh] at hs; cases hs
    | done => rw [hh] at hs; cases hs
  | received r =>
    rw [ht] at hs
    have hm : cfg.main ≠ .entry ∧ cfg.main ≠ .accepted := by
      constructor <;> intro hm
      · rw [h3.2 (Or.inl hm)] at ht; cases ht
      · rw [h3.2 (Or.inr hm)] at ht; cases ht
    have hh := h6 (by rw [ht]; rfl)
    cases r with
    | some e =>
      simp only [Option.some.injEq] at hs
      subst hs
      refine ⟨⟨?_, h2, ?_, ?_, ?_, ?_, ?_, ?_, ?_, ?_, ?_⟩, ?_⟩
      · intro h; exact absurd h hm.1
      · simp [hm.1, hm.2]
      · intro h; simp at h
      · intro h; simp at h
      · intro _; exact hh
      · intro h; exact List.mem_append_left _ (h7 h)
      · simp only [count_snoc, h8, Event.isDelClient]; simp [ht, TaskPc.pastRelease]
      · exact order_snoc conn result _ _ h9 (by intro e h; cases h)
      · intro hne _; exact h10 hne (by rw [ht]; rfl)
      · intro hpr; simp [TaskPc.pastRelease] at hpr
      · simp [Config.left, ht, TaskPc.left]; omega
    | none =>
      simp only [Option.some.injEq] at hs
      subst hs
      refine ⟨⟨?_, h2, ?_, ?_, ?_, ?_, ?_, ?_, ?_, ?_, ?_⟩, ?_⟩
      · intro h; exact absurd h hm.1
      · simp [hm.1, hm.2]
      · intro h; simp at h
      · intro h; simp at h
      · intro _; exact hh
      · exact h7
      · simp only [h8]; simp [ht, TaskPc.pastRelease]
      · exact h9
      · intro hne _; exact h10 hne (by rw [ht]; rfl)
      · intro hpr; simp [TaskPc.pastRelease] at hpr
      · simp [Config.left, ht, TaskPc.left]; omega
  | deferred =>
    rw [ht] at hs
    simp only [Option.some.injEq] at hs
    subst hs
    have hm : cfg.main ≠ .entry ∧ cfg.main ≠ .accepted := by
      constructor <;> intro hm
      · rw [h3.2 (Or.inl hm)] at ht; cases ht
      · rw [h3.2 (Or.inr hm)] at ht; cases ht
    have hh := h6 (by rw [ht]; rfl)
    refine ⟨⟨?_, h2, ?_, ?_, ?_, ?_, ?_, ?_, ?_, ?_, ?_⟩, ?_⟩
    · intro h; exact absurd h hm.1
    · simp [hm.1, hm.2]
    · intro h; simp at h
    · intro h; simp at h
    · intro _; exact hh
    · intro h; exact List.mem_append_left _ (h7 h)
    · simp only [count_snoc, h8, Event.isDelClient]; simp [ht, TaskPc.pastRelease]
    · refine order_snoc conn result _ _ h9 (fun e he => ⟨h7 (Or.inr hh), ?_⟩)
      cases he
      rw [h10 hm.1 (by rw [ht]; rfl)]
      exact (delClient_after_addClient resolve s conn hadm).1
    · intro _ hpr; simp [TaskPc.pastRelease] at hpr
    · intro _; show (delClient resolve cfg.svc conn).2 = _; rw [h10 hm.1 (by rw [ht]; rfl)]
    · simp [Config.left, ht, TaskPc.left]; omega
  | released e =>
    rw [ht] at hs
    have hm : cfg.main ≠ .entry ∧ cfg.main ≠ .accepted := by
      constructor <;> intro hm
      · rw [h3.2 (Or.inl hm)] at ht; cases ht
      · rw [h3.2 (Or.inr hm)] at ht; cases ht
    have hh := h6 (by rw [ht]; rfl)
    cases e with
    | some e =>
      simp only [Option.some.injEq] at hs
      subst hs
      refine ⟨⟨?_, h2, ?_, ?_, ?_, ?_, ?_, ?_, ?_, ?_, ?_⟩, ?_⟩
      · intro h; exact absurd h hm.1
      · simp [hm.1, hm.2]
      · intro h; simp at h
      · intro h; simp at h
      · intro _; exact hh
      · intro h; exact List.mem_append_left _ (h7 h)
      · simp only [count_snoc, h8, Event.isDelClient]; simp [ht, TaskPc.pastRelease]
      · exact order_snoc conn result _ _ h9 (by intro e h; cases h)
      · intro _ hpr; simp [TaskPc.pastRelease] at hpr
      · intro _; exact h11 (by rw [ht]; rfl)
      · simp [Config.left, ht, TaskPc.left]; omega
    | none =>
      simp only [Option.some.injEq] at hs
      subst hs
      refine ⟨⟨?_, h2, ?_, ?_, ?_, ?_, ?_, ?_, ?_, ?_, ?_⟩, ?_⟩
      · intro h; exact absurd h hm.1
      · simp [hm.1, hm.2]
      · intro h; simp at h
      · intro h; simp at h
      · intro _; exact hh
      · exact h7
      · simp only [h8]; simp [ht, TaskPc.pastRelease]
      · exact h9
      · intro _ hpr; simp [TaskPc.pastRelease] at hpr
      · intro _; exact h11 (by rw [ht]; rfl)
      · simp [Config.left, ht, TaskPc.left]; omega
  | done => rw [ht] at hs; cases hs

theorem inv_stepHandler (resolve : Resolver) (s : Service) (conn : Conn)
    (result : Option String) (cfg cfg1 : Config)
    (h : Inv resolve s conn result cfg) (hs : stepHandler conn result cfg = some cfg1) :
    Inv resolve s conn result cfg1 ∧ cfg1.left + 1 = cfg.left := by
  obtain ⟨h1, h2, h3, h4, h5, h6, h7, h8, h9, h10, h11⟩ := h
  unfold stepHandler at hs
  have htask : ∀ hp : HandlerPc, hp ≠ .idle → hp ≠ .done → cfg.handler = hp →
      cfg.task = .waiting := by
    intro hp hp1 hp2 hh
    cases ht : cfg.task with
    | idle => exact absurd ((h4 (Or.inl ht)).symm.trans hh).symm hp1
    | start => exact absurd ((h4 (Or.inr ht)).symm.trans hh).symm hp1
    | waiting => rfl
    | received r => exact absurd ((h6 (by rw [ht]; rfl)).symm.trans hh).symm hp2
    | deferred => exact absurd ((h6 (by rw [ht]; rfl)).symm.trans hh).symm hp2
    | released e => exact absurd ((h6 (by rw [ht]; rfl)).symm.trans hh).symm hp2
    | done => exact absurd ((h6 (by rw [ht]; rfl)).symm.trans hh).symm hp2
  cases hh : cfg.handler with
  | idle => rw [hh] at hs; cases hs
  | start =>
    rw [hh] at hs
    simp only [Option.some.injEq] at hs
    subst hs
    have ht := htask .start (by intro h; cases h) (by intro h; cases h) hh
    refine ⟨⟨h1, h2, h3, ?_, ?_, ?_, ?_, ?_, ?_, ?_, ?_⟩, ?_⟩
    · intro h; rw [ht] at h; simp at h
    · intro _; exact Or.inr (Or.inl rfl)
    · intro h; rw [ht] at h; simp [TaskPc.pastReceive] at h
    · intro h; simp at h
    · simp only [count_snoc, h8, Event.isDelClient]; simp
    · exact order_snoc conn result _ _ h9 (by intro e h; cases h)
    · exact h10
    · exact h11
    · simp [Config.left, hh, HandlerPc.left]
  | running =>
    rw [hh] at hs
    simp only [Option.some.injEq] at hs
    subst hs
    have ht := htask .running (by intro h; cases h) (by intro h; cases h) hh
    refine ⟨⟨h1, h2, h3, ?_, ?_, ?_, ?_, ?_, ?_, ?_, ?_⟩, ?_⟩
    · intro h; rw [ht] at h; simp at h
    · intro _; exact Or.inr (Or.inr rfl)
    · intro h; rw [ht] at h; simp [TaskPc.pastReceive] at h
    · intro _; simp
    · simp only [count_snoc, h8, Event.isDelClient]; simp
    · exact order_snoc conn result _ _ h9 (by intro e h; cases h)
    · exact h10
    · exact h11
    · simp [Config.left, hh, HandlerPc.left]
  | sending r => rw [hh] at hs; cases hs
  | done => rw [hh] at hs; cases hs

theorem inv_step (resolve : Resolver) (s : Service) (conn : Conn) (result : Option String)
    (hadm : (addClient resolve s conn).1 = none) (t : Tid) (cfg cfg1 : Config)
    (h : Inv resolve s conn result cfg) (hs : step resolve conn result t cfg = some cfg1) :
    Inv resolve s conn result cfg1 ∧ cfg1.left + 1 = cfg.left := by
  cases t with
  | main => exact inv_stepMain resolve s conn result hadm cfg cfg1 h hs
  | task => exact inv_stepTask resolve s conn result hadm cfg cfg1 h hs
  | handler => exact inv_stepHandler resolve s conn result cfg cfg1 h hs

theorem inv_exec (resolve : Resolver) (s : Service) (conn : Conn) (result : Option String)
    (hadm : (addClient resolve s conn).1 = none) (sched : List Tid) :
    ∀ cfg cfg1 : Config, Inv resolve s conn result cfg →
      exec resolve conn result sched cfg = some cfg1 →
      Inv resolve s conn result cfg1 ∧ cfg1.left + sched.length = cfg.left := by
  induction sched with
  | nil =>
    intro cfg cfg1 h hs
    simp only [exec, Option.some.injEq] at hs
    subst hs
    exact ⟨h, rfl⟩
  | cons t sched ih =>
    intro cfg cfg1 h hs
    unfold exec at hs
    cases hst : step resolve conn result t cfg with
    | none => rw [hst] at hs; cases hs
    | some cfg2 =>
      rw [hst] at hs
      obtain ⟨i1, i2⟩ := inv_step resolve s conn result hadm t cfg cfg2 h hst
      obtain ⟨j1, j2⟩ := ih cfg2 cfg1 i1 hs
      refine ⟨j1, ?_⟩
      simp only [List.length_cons]
      omega

/-- A state in which no activity can take a step is one in which the
goroutine of `go func(c, s)` has ended. -/
theorem task_done_of_stuck (resolve : Resolver) (s : Service) (conn : Conn)
    (result : Option String) (cfg : Config) (h : Inv resolve s conn result cfg)
    (hstuck : ∀ t, step resolve conn result t cfg = none) :
    cfg.main = .done ∧ cfg.task = .done ∧ cfg.handler = .done := by
  obtain ⟨h1, h2, h3, h4, h5, h6, h7, h8, h9, h10, h11⟩ := h
  have hm : cfg.main = .done := by
    have := hstuck .main
    simp only [step, stepMain] at this
    cases hm : cfg.main <;> rw [hm] at this <;> first | rfl | cases this
  have ht : cfg.task = .done := by
    have htask := hstuck .task
    have hhand := hstuck .handler
    simp only [step, stepTask] at htask
    simp only [step, stepHandler] at hhand
    cases ht : cfg.task with
    | idle =>
      rcases h3.1 ht with h | h <;> rw [hm] at h <;> cases h
    | start => rw [ht] at htask; cases htask
    | waiting =>
      rw [ht] at htask
      rcases h5 ht with h | h | h <;> rw [h] at htask hhand
      · cases hhand
      · cases hhand
      · cases htask
    | received r => rw [ht] at htask; cases r <;> cases htask
    | deferred => rw [ht] at htask; cases htask
    | released e => rw [ht] at htask; cases e <;> cases htask
    | done => rfl
  exact ⟨hm, ht, h6 (by rw [ht]; rfl)⟩

theorem rejecting_init (s : Service) (conn : Conn) (e : Err) :
    Rejecting s conn e 0 (init s) :=
  ⟨by omega, rfl, rfl, rfl, rfl, rfl⟩

theorem rejecting_step (resolve : Resolver) (s : Service) (conn : Conn)
    (result : Option String) (e : Err) (hrej : (addClient resolve s conn).1 = some e)
    (t : Tid) (k : Nat) (cfg cfg1 : Config) (h : Rejecting s conn e k cfg)
    (hs : step resolve conn result t cfg = some cfg1) :
    Rejecting s conn e (k + 1) cfg1 := by
  obtain ⟨hle, hsvc, hmain, htask, hhandler, htrace⟩ := h
  cases t with
  | task =>
    simp only [step, stepTask, htask] at hs
    cases hs
  | handler =>
    simp only [step, stepHandler, hhandler] at hs
    cases hs
  | main =>
    simp only [step, stepMain] at hs
    have hk : k = 0 ∨ k = 1 ∨ k = 2 ∨ k = 3 := by omega
    rcases hk with rfl | rfl | rfl | rfl
    · rw [hmain] at hs
      simp only [rejectedMain, Option.some.injEq] at hs
      subst hs
      refine ⟨by omega, ?_, ?_, htask, hhandler, ?_⟩
      · show (addClient resolve cfg.svc conn).2 = s
        rw [hsvc]
        exact addClient_error_state resolve s conn e hrej
      · show (match (addClient resolve cfg.svc conn).1 with
          | some e => MainPc.rejected e
          | none => MainPc.accepted) = MainPc.rejected e
        rw [hsvc, hrej]
      · show cfg.trace ++ [Event.addClient conn (addClient resolve cfg.svc conn).1] = _
        rw [htrace, hsvc, hrej]
        rfl
    · rw [hmain] at hs
      simp only [rejectedMain, Option.some.injEq] at hs
      subst hs
      refine ⟨by omega, hsvc, rfl, htask, hhandler, ?_⟩
      show cfg.trace ++ [Event.write conn e.Error] = _
      rw [htrace]
      rfl
    · rw [hmain] at hs
      simp only [rejectedMain, Option.some.injEq] at hs
      subst hs
      refine ⟨by omega, hsvc, rfl, htask, hhandler, ?_⟩
      show cfg.trace ++ [Event.close conn] = _
      rw [htrace]
      rfl
    · rw [hmain] at hs
      simp only [rejectedMain] at hs
      cases hs

theorem rejecting_exec (resolve : Resolver) (s : Service) (conn : Conn)
    (result : Option String) (e : Err) (hrej : (addClient resolve s conn).1 = some e)
    (sched : List Tid) : ∀ (k : Nat) (cfg cfg1 : Config), Rejecting s conn e k cfg →
      exec resolve conn result sched cfg = some cfg1 →
      Rejecting s conn e (k + sched.length) cfg1 := by
  induction sched with
  | nil =>
    intro k cfg cfg1 h hs
    simp only [exec, Option.some.injEq] at hs
    subst hs
    exact h
  | cons t sched ih =>
    intro k cfg cfg1 h hs
    unfold exec at hs
    cases hst : step resolve conn result t cfg with
    | none => rw [hst] at hs; cases hs
    | some cfg2 =>
      rw [hst] at hs
      have h2 := rejecting_step resolve s conn result e hrej t k cfg cfg2 h hst
      have h3 := ih (k + 1) cfg2 cfg1 h2 hs
      have hlen : k + (t :: sched).length = k + 1 + sched.length := by
        simp only [List.length_cons]; omega
      rw [hlen]
      exact h3

theorem rejecting_stuck (resolve : Resolver) (s : Service) (conn : Conn)
    (result : Option String) (e : Err) (k : Nat) (cfg : Config)
    (h : Rejecting s conn e k cfg)
    (hstuck : ∀ t, step resolve conn result t cfg = none) : k = 3 := by
  obtain ⟨hle, hsvc, hmain, htask, hhandler, htrace⟩ := h
  have hm := hstuck .main
  simp only [step, stepMain] at hm
  have hk : k = 0 ∨ k = 1 ∨ k = 2 ∨ k = 3 := by omega
  rcases hk with rfl | rfl | rfl | rfl
  · rw [hmain] at hm; simp [rejectedMain] at hm
  · rw [hmain] at hm; simp [rejectedMain] at hm
  · rw [hmain] at hm; simp [rejectedMain] at hm
  · rfl

end handleConnection

/-! ## Facts about the calls run one by one -/

namespace Interleaving

theorem deref_append (sh sh1 : Shared) (q : Nat) (h : sh1.dicts = sh.dicts ++ [Data.empty]) :
    sh1.deref q = sh.deref q := by
  simp only [Shared.deref, h, List.getD_eq_getElem?_getD]
  by_cases h : q < sh.dicts.length
  · rw [List.getElem?_append_left h]
  · rw [List.getElem?_append_right (by omega)]
    have h1 : sh.dicts[q]? = none := List.getElem?_eq_none (by omega)
    rw [h1]
    cases h2 : q - sh.dicts.length with
    | zero => simp
    | succ n => simp

theorem deref_set (sh sh1 : Shared) (p q : Nat) (x : Data Conn) (hp : p < sh.dicts.length)
    (h : sh1.dicts = sh.dicts.set p x) :
    sh1.deref q = if q = p then x else sh.deref q := by
  simp only [Shared.deref, h, List.getD_eq_getElem?_getD, List.getElem?_set]
  by_cases h : q = p
  · subst h
    simp [hp]
  · have h1 : ¬ p = q := fun h2 => h h2.symm
    simp [h, h1]

theorem view_lookup (sh : Shared) (ip : String) :
    sh.view.connections.lookup ip = (sh.connections.lookup ip).map sh.deref :=
  Data.lookup_mapVal sh.deref sh.connections ip

/-- Run alone, the steps of `addClient(conn)` return what `addClient` returns
and leave the memory standing for the state that `addClient` leaves. -/
theorem addClient_alone (resolve : Resolver) (cAdd cDel : Conn) (sh : Shared) (hwf : sh.WF) :
    ∃ k cfg, exec resolve cAdd cDel (List.replicate k Who.add) (start sh) = some cfg ∧
      cfg.del = .entry ∧
      cfg.add = .returned (addClient resolve sh.view cAdd).1 ∧
      SameState cfg.shared.view (addClient resolve sh.view cAdd).2 ∧
      cfg.shared.WF := by
  by_cases hg : 0 < sh.MaxConnections ∧ sh.MaxConnections ≤ sh.connectionCount
  · have hat := addClient_global resolve sh.view cAdd hg
    refine ⟨1, { shared := sh, add := .returned (some .errTooManyConnections), del := .entry },
      ?_, rfl, ?_, ?_, hwf⟩
    · simp [List.replicate, exec, step, stepAddClient, start, hg]
    · rw [hat]
    · rw [hat]; exact ⟨rfl, rfl, rfl, fun _ => rfl⟩
  · cases hr : resolve cAdd.network cAdd.remote with
    | error e =>
      have hat := addClient_unresolved resolve sh.view cAdd e hg hr
      refine ⟨1, { shared := sh, add := .returned (some (.resolveErr e)), del := .entry },
        ?_, rfl, ?_, ?_, hwf⟩
      · simp [List.replicate, exec, step, stepAddClient, start, hg, hr]
      · rw [hat]
      · rw [hat]; exact ⟨rfl, rfl, rfl, fun _ => rfl⟩
    | ok ip =>
      cases hl : sh.connections.lookup ip with
      | some p =>
        have hp : p < sh.dicts.length := hwf.1 ip p hl
        have hcur : currentConns sh.view ip = sh.deref p := by
          simp [currentConns, view_lookup, hl]
        by_cases hcap : 0 < sh.MaxConnectionsPerIP ∧
            sh.MaxConnectionsPerIP ≤ ((sh.deref p).len : Int)
        · have hat := (addClient_perIP resolve sh.view cAdd ip hg hr
            (by rw [hcur]; exact hcap)).1
          refine ⟨3,
            { shared := sh
              add := .returned (some .errTooManyConnectionsPerIP)
              del := .entry }, ?_, rfl, ?_, ?_, hwf⟩
          · simp [List.replicate, exec, step, stepAddClient, start, hg, hr, hl, hcap]
          · rw [hat]
          · rw [hat]; exact ⟨rfl, rfl, rfl, fun _ => rfl⟩
        · have hat := addClient_ok resolve sh.view cAdd ip hg hr (by rw [hcur]; exact hcap)
          refine ⟨5,
            { shared :=
                { sh with
                  dicts := sh.dicts.set p ((sh.deref p).assign cAdd.remote cAdd)
                  connectionCount := wrap64 (sh.connectionCount + 1)
                  countInt64 := wrap64_range _ }
              add := .returned none
              del := .entry }, ?_, rfl, ?_, ?_, ?_⟩
          · simp [List.replicate, exec, step, stepAddClient, start, hg, hr, hl, hcap]
          · rw [hat]
          · rw [hat, hcur]
            refine ⟨rfl, rfl, rfl, ?_⟩
            intro ip1
            rw [view_lookup]
            by_cases h1 : ip1 = ip
            · subst h1
              simp only [hl, Option.map_some', Data.lookup_assign_self]
              rw [deref_set sh _ p p _ hp rfl, if_pos rfl]
            · simp only
              rw [Data.lookup_assign_ne _ _ _ _ h1, view_lookup]
              cases hq : sh.connections.lookup ip1 with
              | none => rfl
              | some q =>
                have hne : q ≠ p := by
                  intro heq
                  subst heq
                  exact h1 (hwf.2 ip1 ip q hq hl)
                simp only [Option.map_some']
                rw [deref_set sh _ p q _ hp rfl, if_neg hne]
          · refine ⟨?_, hwf.2⟩
            intro ip1 q hq
            simp only [List.length_set]
            exact hwf.1 ip1 q hq
      | none =>
        have hcur : currentConns sh.view ip = Data.empty := by
          simp [currentConns, view_lookup, hl]
        have hcap : ¬ (0 < sh.MaxConnectionsPerIP ∧
            sh.MaxConnectionsPerIP ≤ ((Data.empty : Data Conn).len : Int)) := by
          rintro ⟨h1, h2⟩
          simp only [Data.len_empty, Int.ofNat_zero] at h2
          omega
        have hat := addClient_ok resolve sh.view cAdd ip hg hr (by rw [hcur]; exact hcap)
        have hnew : (sh.dicts ++ [Data.empty]).getD sh.dicts.length Data.empty =
            (Data.empty : Data Conn) := by
          simp [List.getD_eq_getElem?_getD]
        have hcap0 : ¬ (0 < sh.MaxConnectionsPerIP ∧ sh.MaxConnectionsPerIP ≤ 0) := by
          rintro ⟨h1, h2⟩; omega
        refine ⟨6,
          { shared :=
              { sh with
                connections := sh.connections.assign ip sh.dicts.length
                dicts := (sh.dicts ++ [Data.empty]).set sh.dicts.length
                  ((Data.empty : Data Conn).assign cAdd.remote cAdd)
                connectionCount := wrap64 (sh.connectionCount + 1)
                countInt64 := wrap64_range _ }
            add := .returned none
            del := .entry }, ?_, rfl, ?_, ?_, ?_⟩
        · simp [List.replicate, exec, step, stepAddClient, start, hg, hr, hl, hnew, hcap0,
            Shared.deref]
        · rw [hat]
        · rw [hat, hcur]
          refine ⟨rfl, rfl, rfl, ?_⟩
          intro ip1
          rw [view_lookup]
          have hlen : sh.dicts.length < (sh.dicts ++ [Data.empty]).length := by simp
          by_cases h1 : ip1 = ip
          · subst h1
            simp only [Data.lookup_assign_self, Option.map_some']
            rw [deref_set { sh with dicts := sh.dicts ++ [Data.empty] } _ _ _ _ hlen rfl,
              if_pos rfl]
          · simp only
            rw [Data.lookup_assign_ne _ _ _ _ h1, Data.lookup_assign_ne _ _ _ _ h1, view_lookup]
            cases hq : sh.connections.lookup ip1 with
            | none => rfl
            | some q =>
              have hne : q ≠ sh.dicts.length := by
                have := hwf.1 ip1 q hq
                omega
              simp only [Option.map_some']
              rw [deref_set { sh with dicts := sh.dicts ++ [Data.empty] } _ _ _ _ hlen rfl,
                if_neg hne]
              exact congrArg some (deref_append sh _ q rfl)
        · constructor
          · intro ip1 q hq
            simp only [List.length_set, List.length_append, List.length_singleton]
            simp only at hq
            by_cases h1 : ip1 = ip
            · subst h1
              rw [Data.lookup_assign_self] at hq
              cases hq
              omega
            · rw [Data.lookup_assign_ne _ _ _ _ h1] at hq
              have := hwf.1 ip1 q hq
              omega
          · intro ip1 ip2 q hq1 hq2
            simp only at hq1 hq2
            by_cases h1 : ip1 = ip
            · by_cases h2 : ip2 = ip
              · rw [h1, h2]
              · subst h1
                rw [Data.lookup_assign_self] at hq1
                rw [Data.lookup_assign_ne _ _ _ _ h2] at hq2
                cases hq1
                have := hwf.1 ip2 _ hq2
                omega
            · rw [Data.lookup_assign_ne _ _ _ _ h1] at hq1
              by_cases h2 : ip2 = ip
              · subst h2
                rw [Data.lookup_assign_self] at hq2
                cases hq2
                have := hwf.1 ip1 _ hq1
                omega
              · rw [Data.lookup_assign_ne _ _ _ _ h2] at hq2
                exact hwf.2 ip1 ip2 q hq1 hq2

/-- Run alone, the steps of `delClient(conn)` return what `delClient` returns
and leave the memory standing for the state that `delClient` leaves. -/
theorem delClient_alone (resolve : Resolver) (cAdd cDel : Conn) (sh : Shared) (hwf : sh.WF) :
    ∃ k cfg, exec resolve cAdd cDel (List.replicate k Who.del) (start sh) = some cfg ∧
      cfg.add = .entry ∧
      cfg.del = .returned (delClient resolve sh.view cDel).1 ∧
      SameState cfg.shared.view (delClient resolve sh.view cDel).2 ∧
      cfg.shared.WF := by
  cases hr : resolve cDel.network cDel.remote with
  | error e =>
    have hat := delClient_unresolved resolve sh.view cDel e hr
    refine ⟨1, { shared := sh, add := .entry, del := .returned (some (.resolveErr e)) },
      ?_, rfl, ?_, ?_, hwf⟩
    · simp [List.replicate, exec, step, stepDelClient, start, hr]
    · rw [hat]
    · rw [hat]; exact ⟨rfl, rfl, rfl, fun _ => rfl⟩
  | ok ip =>
    cases hl : sh.connections.lookup ip with
    | none =>
      have hat := delClient_unknown resolve sh.view cDel ip hr (by rw [view_lookup, hl]; rfl)
      refine ⟨1,
        { shared := sh
          add := .entry
          del := .returned (some (.errorsNew ("no connections from this IP: " ++ ip))) },
        ?_, rfl, ?_, ?_, hwf⟩
      · simp [List.replicate, exec, step, stepDelClient, start, hr, hl]
      · rw [hat]
      · rw [hat]; exact ⟨rfl, rfl, rfl, fun _ => rfl⟩
    | some p =>
      have hp : p < sh.dicts.length := hwf.1 ip p hl
      have hat := delClient_ok resolve sh.view cDel ip (sh.deref p) hr
        (by rw [view_lookup, hl]; rfl)
      have hother : ∀ ip1 q (sh1 : Shared),
          sh1.dicts = sh.dicts.set p ((sh.deref p).delete cDel.remote) →
          ip1 ≠ ip → sh.connections.lookup ip1 = some q → sh1.deref q = sh.deref q := by
        intro ip1 q sh1 hdicts h1 hq
        have hne : q ≠ p := by
          intro heq
          subst heq
          exact h1 (hwf.2 ip1 ip q hq hl)
        rw [deref_set sh sh1 p q _ hp hdicts, if_neg hne]
      by_cases h0 : ((sh.deref p).delete cDel.remote).len = 0
      · have h0n := h0
        simp [Shared.deref, hp] at h0n
        refine ⟨5,
          { shared :=
              { sh with
                connections := sh.connections.delete ip
                dicts := sh.dicts.set p ((sh.deref p).delete cDel.remote)
                connectionCount := wrap64 (sh.connectionCount - 1)
                countInt64 := wrap64_range _ }
            add := .entry
            del := .returned none }, ?_, rfl, ?_, ?_, ?_⟩
        · simp [List.replicate, exec, step, stepDelClient, start, hr, hl, hp, h0n, Shared.deref]
        · rw [hat]
        · rw [hat]
          refine ⟨rfl, rfl, rfl, ?_⟩
          intro ip1
          simp only
          rw [lookup_after_delete, view_lookup, if_pos h0]
          by_cases h1 : ip1 = ip
          · subst h1
            simp
          · rw [if_neg h1]
            simp only
            rw [Data.lookup_delete_ne _ _ _ h1, view_lookup]
            cases hq : sh.connections.lookup ip1 with
            | none => rfl
            | some q =>
              simp only [Option.map_some']
              exact congrArg some (hother ip1 q _ rfl h1 hq)
        · constructor
          · intro ip1 q hq
            simp only [List.length_set]
            simp only at hq
            by_cases h1 : ip1 = ip
            · subst h1
              rw [Data.lookup_delete_self] at hq
              cases hq
            · rw [Data.lookup_delete_ne _ _ _ h1] at hq
              exact hwf.1 ip1 q hq
          · intro ip1 ip2 q hq1 hq2
            simp only at hq1 hq2
            by_cases h1 : ip1 = ip
            · subst h1
              rw [Data.lookup_delete_self] at hq1
              cases hq1
            · by_cases h2 : ip2 = ip
              · subst h2
                rw [Data.lookup_delete_self] at hq2
                cases hq2
              · rw [Data.lookup_delete_ne _ _ _ h1] at hq1
                rw [Data.lookup_delete_ne _ _ _ h2] at hq2
                exact hwf.2 ip1 ip2 q hq1 hq2
      · have h0n := h0
        simp [Shared.deref, hp] at h0n
        refine ⟨4,
          { shared :=
              { sh with
                dicts := sh.dicts.set p ((sh.deref p).delete cDel.remote)
                connectionCount := wrap64 (sh.connectionCount - 1)
                countInt64 := wrap64_range _ }
            add := .entry
            del := .returned none }, ?_, rfl, ?_, ?_, ?_⟩
        · simp [List.replicate, exec, step, stepDelClient, start, hr, hl, hp, h0n, Shared.deref]
        · rw [hat]
        · rw [hat]
          refine ⟨rfl, rfl, rfl, ?_⟩
          intro ip1
          simp only
          rw [lookup_after_delete, view_lookup, if_neg h0]
          by_cases h1 : ip1 = ip
          · subst h1
            simp only [hl, Option.map_some', if_true]
            rw [deref_set sh _ p p _ hp rfl, if_pos rfl]
          · rw [if_neg h1, view_lookup]
            cases hq : sh.connections.lookup ip1 with
            | none => rfl
            | some q =>
              simp only [Option.map_some']
              exact congrArg some (hother ip1 q _ rfl h1 hq)
        · refine ⟨?_, hwf.2⟩
          intro ip1 q hq
          simp only [List.length_set]
          exact hwf.1 ip1 q hq

end Interleaving

/-! ## The claims -/

/-- C1 fails on the code, in the calls that `handleConnection` makes: on a
service from `New`, `addClient` of two connections with the same remote
endpoint returns `nil` twice and leaves a count of 2 with one entry in the
inner registry, the second having overwritten the first; `delClient` of the
first then returns `nil` and removes the IP, and `delClient` of the second
returns the error for an IP without registry and does not lower the count.
`ConnectionCount` is then 1 while no connection is open. -/
theorem C1_count_leak :
    runResults resolveLit New [.add cA1, .add cA1bis, .del cA1, .del cA1bis] =
      [none, none, none, some (.errorsNew "no connections from this IP: 10.0.0.1")] ∧
    ConnectionCount (runOps resolveLit New [.add cA1, .add cA1bis]) = 2 ∧
    (runOps resolveLit New [.add cA1, .add cA1bis]).connections.lookup "10.0.0.1" =
      some (Data.empty.assign "10.0.0.1:1000" cA1bis) ∧
    openAfter resolveLit New [] [.add cA1, .add cA1bis] = [cA1, cA1bis] ∧
    (runOps resolveLit New [.add cA1, .add cA1bis, .del cA1]).connections.lookup "10.0.0.1" =
      none ∧
    openAfter resolveLit New [] [.add cA1, .add cA1bis, .del cA1, .del cA1bis] = [] ∧
    ConnectionCount (runOps resolveLit New [.add cA1, .add cA1bis, .del cA1, .del cA1bis]) =
      1 ∧
    ConnectionCount (runOps resolveLit New [.add cA1, .add cA1bis, .del cA1, .del cA1bis]) ≠
      ((openAfter resolveLit New [] [.add cA1, .add cA1bis, .del cA1, .del cA1bis]).length :
        Int) := by
  decide

/-- C2: with `MaxConnections = n > 0`, an `int64`, and
`MaxConnectionsPerIP ≤ 0`, starting from `New`, `addClient` on `n` connections
with resolvable addresses succeeds each time; then every further `addClient`
returns `errTooManyConnections`, and after `delClient` on any one of the `n`,
which returns `nil`, `addClient` on any connection with a resolvable address
returns `nil`. -/
theorem C2_global_cap (resolve : Resolver) (n p : Int) (cs : List Conn)
    (hn : 0 < n) (hmax : n ≤ maxInt64) (hp : p ≤ 0) (hlen : (cs.length : Int) = n)
    (hres : ∀ c ∈ cs, ∃ ip, resolve c.network c.remote = .ok ip) :
    (∀ r ∈ runResults resolve (configured n p) (cs.map Op.add), r = none) ∧
    (∀ c, (addClient resolve (runOps resolve (configured n p) (cs.map Op.add)) c).1 =
      some .errTooManyConnections) ∧
    (∀ c ∈ cs,
      (delClient resolve (runOps resolve (configured n p) (cs.map Op.add)) c).1 = none ∧
      ∀ c', (∃ ip, resolve c'.network c'.remote = .ok ip) →
        (addClient resolve
          (delClient resolve (runOps resolve (configured n p) (cs.map Op.add)) c).2 c').1 =
          none) := by
  obtain ⟨h1, h2, _, h4⟩ := addClient_all resolve n hmax cs (configured n p) rfl hp
    (by simp [configured, New, hlen]) hres
  have hlim := runOps_limits resolve (cs.map Op.add) (configured n p)
  have hcount : (runOps resolve (configured n p) (cs.map Op.add)).connectionCount = n := by
    rw [h1]; simp [configured, New, hlen]
  refine ⟨h2, ?_, ?_⟩
  · intro c
    rw [addClient_global resolve _ c]
    rw [hlim.1, hcount]
    exact ⟨hn, le_refl _⟩
  · intro c hc
    obtain ⟨ip, hr⟩ := hres c hc
    cases hl : (runOps resolve (configured n p) (cs.map Op.add)).connections.lookup ip with
    | none => exact absurd hl (h4 c hc ip hr)
    | some inner =>
      have hdel := delClient_ok resolve _ c ip inner hr hl
      refine ⟨by rw [hdel], ?_⟩
      intro c' ⟨ip', hr'⟩
      have hlim2 := delClient_limits resolve
        (runOps resolve (configured n p) (cs.map Op.add)) c
      have hc2 : (delClient resolve
          (runOps resolve (configured n p) (cs.map Op.add)) c).2.connectionCount = n - 1 := by
        rw [hdel]
        simp only
        rw [hcount]
        refine wrap64_of_range _ ⟨?_, by omega⟩
        unfold minInt64
        omega
      rw [addClient_ok resolve _ c' ip']
      · rw [hlim2.1, hlim.1, hc2]
        rintro ⟨_, h⟩
        have h' : n ≤ n - 1 := h
        omega
      · exact hr'
      · rw [hlim2.2, hlim.2]
        rintro ⟨h, _⟩
        have h' : 0 < p := h
        omega

theorem C2_global_cap_witness :
    (0 : Int) < 2 ∧ (2 : Int) ≤ maxInt64 ∧
    (∀ c, (addClient resolveLit (runOps resolveLit (configured 2 0)
      ([cA1, cB1].map Op.add)) c).1 = some .errTooManyConnections) :=
  ⟨by decide, by decide, (C2_global_cap resolveLit 2 0 [cA1, cB1] (by decide) (by decide)
    (by decide) (by decide)
    (by
      intro c hc
      simp only [List.mem_cons, List.mem_singleton, List.not_mem_nil, or_false] at hc
      rcases hc with rfl | rfl <;> exact ⟨_, rfl⟩)).2.1⟩

/-- C3: with `MaxConnectionsPerIP = m > 0`, in every state reached from `New`
by `addClient` and `delClient` calls, every inner registry of the outer
registry holds at most `m` entries, whatever `MaxConnections` is. -/
theorem C3_per_ip_cap (resolve : Resolver) (n m : Int) (hm : 0 < m) (ops : List Op)
    (ip : String) (inner : Data Conn)
    (h : (runOps resolve (configured n m) ops).connections.lookup ip = some inner) :
    (inner.len : Int) ≤ m := by
  have h1 := capped_runOps resolve n m hm ops ip inner h
  rwa [(runOps_limits resolve ops (configured n m)).2] at h1

theorem C3_per_ip_cap_witness :
    (runOps resolveLit (configured 0 1) [.add cA1, .add cA2]).connections.lookup "10.0.0.1" =
      some (Data.empty.assign "10.0.0.1:1000" cA1) ∧
    ((Data.empty.assign "10.0.0.1:1000" cA1).len : Int) ≤ 1 :=
  ⟨by decide, C3_per_ip_cap resolveLit 0 1 (by decide) [.add cA1, .add cA2] "10.0.0.1" _
    (by decide)⟩

/-- C4: whenever `addClient` returns an error, the state after the call is the
state before it: the count, the outer registry and every inner registry. A
rejection for the per-IP limit happens only for an IP whose inner registry
already exists and is non-empty, so no empty inner registry is left behind. -/
theorem C4_rejection_keeps_state (resolve : Resolver) (s : Service) (c : Conn) (e : Err)
    (h : (addClient resolve s c).1 = some e) :
    (addClient resolve s c).2 = s ∧
    (e = .errTooManyConnectionsPerIP →
      ∃ ip inner, resolve c.network c.remote = .ok ip ∧
        (addClient resolve s c).2.connections.lookup ip = some inner ∧ 0 < inner.len) := by
  by_cases hg : 0 < s.MaxConnections ∧ s.MaxConnections ≤ s.connectionCount
  · rw [addClient_global resolve s c hg] at h ⊢
    refine ⟨rfl, ?_⟩
    rintro rfl
    simp at h
  · cases hr : resolve c.network c.remote with
    | error e0 =>
      rw [addClient_unresolved resolve s c e0 hg hr] at h ⊢
      refine ⟨rfl, ?_⟩
      rintro rfl
      simp at h
    | ok ip =>
      by_cases hcap : 0 < s.MaxConnectionsPerIP ∧
          s.MaxConnectionsPerIP ≤ ((currentConns s ip).len : Int)
      · obtain ⟨h1, h2⟩ := addClient_perIP resolve s c ip hg hr hcap
        rw [h1]
        refine ⟨rfl, fun _ => ?_⟩
        cases hl : s.connections.lookup ip with
        | none => exact absurd hl h2
        | some inner =>
          refine ⟨ip, inner, rfl, hl, ?_⟩
          have : currentConns s ip = inner := by simp [currentConns, hl]
          rw [this] at hcap
          omega
      · rw [addClient_ok resolve s c ip hg hr hcap] at h
        simp at h

theorem C4_rejection_keeps_state_witness :
    (addClient resolveLit (addClient resolveLit (configured 2 1) cA1).2 cA2).1 =
      some .errTooManyConnectionsPerIP ∧
    (addClient resolveLit (addClient resolveLit (configured 2 1) cA1).2 cA2).2 =
      (addClient resolveLit (configured 2 1) cA1).2 :=
  ⟨by decide, (C4_rejection_keeps_state resolveLit _ cA2 .errTooManyConnectionsPerIP
    (by decide)).1⟩

/-- C5: in every state reached from `New` by `addClient` and `delClient`
calls, the outer registry has a key for an IP exactly when the inner registry
under that key holds a connection, which is then a connection of that IP kept
under its remote endpoint; no key maps to an empty inner registry. -/
theorem C5_no_empty_inner_registry (resolve : Resolver) (n m : Int) (ops : List Op)
    (ip : String) :
    ((runOps resolve (configured n m) ops).connections.lookup ip ≠ none ↔
      ∃ inner c, (runOps resolve (configured n m) ops).connections.lookup ip = some inner ∧
        inner.lookup c.remote = some c ∧ resolve c.network c.remote = .ok ip) ∧
    (∀ inner, (runOps resolve (configured n m) ops).connections.lookup ip = some inner →
      inner.len ≠ 0) := by
  have hw := wellKeyed_runOps resolve n m ops
  refine ⟨⟨?_, ?_⟩, fun inner hl => (hw ip inner hl).1⟩
  · intro hne
    cases hl : (runOps resolve (configured n m) ops).connections.lookup ip with
    | none => exact absurd hl hne
    | some inner =>
      obtain ⟨h0, hk⟩ := hw ip inner hl
      have hex : ∃ key, inner.lookup key ≠ none := by
        by_contra hcon
        push_neg at hcon
        exact h0 ((Data.len_eq_zero_iff inner).2 hcon)
      obtain ⟨key, hkey⟩ := hex
      cases hv : inner.lookup key with
      | none => exact absurd hv hkey
      | some c =>
        obtain ⟨h1, h2⟩ := hk key c hv
        subst h1
        exact ⟨inner, c, rfl, hv, h2⟩
  · rintro ⟨inner, c, hl, _, _⟩
    rw [hl]
    simp

/-- C6, as stated, fails: in the state that tracks `cA1` with the count at the
least `int64`, `delClient(cA1)` returns `nil` and the count becomes the
greatest `int64`, which is not one less. -/
theorem C6_counterexample :
    resolveLit cA1.network cA1.remote = .ok "10.0.0.1" ∧
    atMin.connections.lookup "10.0.0.1" = some (Data.empty.assign "10.0.0.1:1000" cA1) ∧
    atMin.connectionCount = -9223372036854775808 ∧
    (delClient resolveLit atMin cA1).1 = none ∧
    (delClient resolveLit atMin cA1).2.connectionCount = 9223372036854775807 ∧
    (delClient resolveLit atMin cA1).2.connectionCount ≠ atMin.connectionCount - 1 := by
  refine ⟨rfl, by decide, by decide, by decide, by decide, by decide⟩

/-- C6, amended: when the address of `c` resolves to an IP that has an inner
registry, `delClient` returns `nil`, deletes the remote endpoint of `c` from
that inner registry, removes the IP from the outer registry exactly when the
inner registry is then empty, leaves every other IP as it was and lowers the
count by one in `int64`: by exactly one when the count is above the least
`int64`, and from the least `int64` to the greatest; after the release of the
last connection of the IP the outer registry has no entry for it. -/
theorem C6_release (resolve : Resolver) (s : Service) (c : Conn) (ip : String)
    (inner : Data Conn) (hr : resolve c.network c.remote = .ok ip)
    (hl : s.connections.lookup ip = some inner) :
    (delClient resolve s c).1 = none ∧
    (inner.delete c.remote).lookup c.remote = none ∧
    (∀ key, key ≠ c.remote → (inner.delete c.remote).lookup key = inner.lookup key) ∧
    ((inner.delete c.remote).len = 0 →
      (delClient resolve s c).2.connections.lookup ip = none) ∧
    ((inner.delete c.remote).len ≠ 0 →
      (delClient resolve s c).2.connections.lookup ip = some (inner.delete c.remote)) ∧
    (∀ ip', ip' ≠ ip →
      (delClient resolve s c).2.connections.lookup ip' = s.connections.lookup ip') ∧
    ((delClient resolve s c).2.connectionCount = wrap64 (s.connectionCount - 1) ∧
      (minInt64 < s.connectionCount →
        (delClient resolve s c).2.connectionCount = s.connectionCount - 1) ∧
      (s.connectionCount = minInt64 →
        (delClient resolve s c).2.connectionCount = maxInt64)) ∧
    ((∀ key, inner.lookup key ≠ none → key = c.remote) →
      (delClient resolve s c).2.connections.lookup ip = none) := by
  rw [delClient_ok resolve s c ip inner hr hl]
  have hcount : wrap64 (s.connectionCount - 1) = wrap64 (s.connectionCount - 1) ∧
      (minInt64 < s.connectionCount → wrap64 (s.connectionCount - 1) = s.connectionCount - 1) ∧
      (s.connectionCount = minInt64 → wrap64 (s.connectionCount - 1) = maxInt64) := by
    refine ⟨rfl, ?_, ?_⟩
    · intro hlt
      have hmax := s.countInt64.2
      refine wrap64_of_range _ ⟨?_, by omega⟩
      unfold minInt64 at hlt ⊢
      omega
    · intro heq
      rw [heq]
      exact wrap64_min
  refine ⟨rfl, Data.lookup_delete_self _ _, fun key hk => Data.lookup_delete_ne _ _ _ hk,
    ?_, ?_, ?_, hcount, ?_⟩
  · intro h0; simp only [lookup_after_delete]; simp [h0]
  · intro h0; simp only [lookup_after_delete]; simp [h0]
  · intro ip' hne; simp only [lookup_after_delete]; simp [hne]
  · intro hlast
    simp only [lookup_after_delete]
    have h0 : (inner.delete c.remote).len = 0 := by
      rw [Data.len_eq_zero_iff]
      intro key
      by_cases hkey : key = c.remote
      · subst hkey; exact Data.lookup_delete_self _ _
      · rw [Data.lookup_delete_ne _ _ _ hkey]
        by_contra hcon
        exact hkey (hlast key hcon)
    simp [h0]

theorem C6_release_witness :
    (delClient resolveLit (addClient resolveLit New cA1).2 cA1).1 = none ∧
    (delClient resolveLit (addClient resolveLit New cA1).2 cA1).2.connections.lookup "10.0.0.1" =
      none ∧
    (delClient resolveLit (addClient resolveLit New cA1).2 cA1).2.connectionCount =
      (addClient resolveLit New cA1).2.connectionCount - 1 ∧
    (delClient resolveLit atMin cA1).2.connectionCount = maxInt64 :=
  ⟨(C6_release resolveLit (addClient resolveLit New cA1).2 cA1 "10.0.0.1"
      (Data.empty.assign "10.0.0.1:1000" cA1) rfl (by decide)).1,
    (C6_release resolveLit (addClient resolveLit New cA1).2 cA1 "10.0.0.1"
      (Data.empty.assign "10.0.0.1:1000" cA1) rfl (by decide)).2.2.2.1 (by decide),
    (C6_release resolveLit (addClient resolveLit New cA1).2 cA1 "10.0.0.1"
      (Data.empty.assign "10.0.0.1:1000" cA1) rfl (by decide)).2.2.2.2.2.2.1.2.1 (by decide),
    (C6_release resolveLit atMin cA1 "10.0.0.1"
      (Data.empty.assign "10.0.0.1:1000" cA1) rfl (by decide)).2.2.2.2.2.2.1.2.2 (by decide)⟩

/-- C7: when `addClient` admits the connection, then whatever the handler
returns and in whatever order the three activities take their steps: at most
one `delClient` has been called at any time, every call of `delClient` on the
connection comes after the handler has returned and returns `nil`, at most ten
steps are taken, and once no activity can take a step all three have ended,
exactly one `delClient` has been called and the count is what it was before
the connection was admitted. -/
theorem C7_release_exactly_once (resolve : Resolver) (s : Service) (conn : Conn)
    (result : Option String) (sched : List handleConnection.Tid)
    (cfg : handleConnection.Config) (hadm : (addClient resolve s conn).1 = none)
    (hrun : handleConnection.exec resolve conn result sched (handleConnection.init s) =
      some cfg) :
    (cfg.trace.filter handleConnection.Event.isDelClient).length ≤ 1 ∧
    (∀ pre post e, cfg.trace = pre ++ handleConnection.Event.delClient conn e :: post →
      handleConnection.Event.handlerReturn conn result ∈ pre ∧ e = none) ∧
    sched.length ≤ 10 ∧
    ((∀ t, handleConnection.step resolve conn result t cfg = none) →
      cfg.main = .done ∧ cfg.task = .done ∧ cfg.handler = .done ∧
      (cfg.trace.filter handleConnection.Event.isDelClient).length = 1 ∧
      cfg.svc.connectionCount = s.connectionCount) := by
  obtain ⟨hinv, hlen⟩ := handleConnection.inv_exec resolve s conn result hadm sched
    (handleConnection.init s) cfg (handleConnection.inv_init resolve s conn result) hrun
  refine ⟨?_, hinv.order, ?_, ?_⟩
  · rw [hinv.count]; split <;> omega
  · have : (handleConnection.init s).left = 10 := rfl
    omega
  · intro hstuck
    obtain ⟨h1, h2, h3⟩ :=
      handleConnection.task_done_of_stuck resolve s conn result cfg hinv hstuck
    refine ⟨h1, h2, h3, ?_, ?_⟩
    · rw [hinv.count, h2]
      rfl
    · rw [hinv.svc_end (by rw [h2]; rfl)]
      exact (delClient_after_addClient resolve s conn hadm).2

theorem C7_release_exactly_once_witness :
    (addClient resolveLit New cA1).1 = none ∧
    (∃ cfg, handleConnection.exec resolveLit cA1 (some "boom")
        [.main, .main, .task, .handler, .handler, .task, .task, .task, .task, .main]
        (handleConnection.init New) = some cfg ∧
      cfg.trace = [.addClient cA1 none, .goTask cA1, .goHandler cA1, .handlerCall cA1,
        .handlerReturn cA1 (some "boom"), .receive (some "boom"), .log "client failed: boom",
        .delClient cA1 none, .close cA1] ∧
      (∀ t, handleConnection.step resolveLit cA1 (some "boom") t cfg = none) ∧
      (cfg.trace.filter handleConnection.Event.isDelClient).length = 1) :=
  ⟨by decide, _, rfl, by decide, by decide,
    (C7_release_exactly_once resolveLit New cA1 (some "boom")
      [.main, .main, .task, .handler, .handler, .task, .task, .task, .task, .main] _
      (by decide) rfl).2.2.2 (by decide) |>.2.2.2.1⟩

/-- C8 fails on the code: for an admitted connection there is an order of
steps, the one in which `handleConnection` runs to its return before the
goroutine it started takes a step, in which `conn.Close()` has run while the
handler has not been called and `delClient` has not run. -/
theorem C8_close_before_handler :
    (addClient resolveLit New cA1).1 = none ∧
    ∃ cfg, handleConnection.exec resolveLit cA1 none [.main, .main, .main]
        (handleConnection.init New) = some cfg ∧
      cfg.trace = [.addClient cA1 none, .goTask cA1, .close cA1] ∧
      handleConnection.Event.close cA1 ∈ cfg.trace ∧
      handleConnection.Event.handlerCall cA1 ∉ cfg.trace ∧
      (∀ e, handleConnection.Event.delClient cA1 e ∉ cfg.trace) ∧
      cfg.task = .start := by
  refine ⟨by decide, _, rfl, by decide, by decide, by decide, ?_, by decide⟩
  intro e h
  change handleConnection.Event.delClient cA1 e ∈
    [handleConnection.Event.addClient cA1 none, handleConnection.Event.goTask cA1,
      handleConnection.Event.close cA1] at h
  simp at h

/-- C9: on a running registry, `Set(k, v)` followed by `Get(k)` returns
`(v, true)`; `Del(k)` followed by `Get(k)` returns `(nil, false)`, whether or
not `k` was there; `Get` of a key that is not there returns `(nil, false)`;
and `Set(k, _)` and `Del(k)` leave what `Get` returns for every other key as
it was. -/
theorem C9_registry_round_trip {V : Type} (d : Dict V) (k : String) (v : V)
    (hopen : d.closed = false) :
    (∃ d1, d.Set k v = .ret d1 ∧ d1.Get k = .ret (some v, true) ∧
      ∀ k1, k1 ≠ k → d1.Get k1 = d.Get k1) ∧
    (∃ d2, d.Del k = .ret d2 ∧ d2.Get k = .ret (none, false) ∧
      ∀ k1, k1 ≠ k → d2.Get k1 = d.Get k1) ∧
    (d.data.lookup k = none → d.Get k = .ret (none, false)) ∧
    (∀ v0, d.data.lookup k = some v0 → d.Get k = .ret (some v0, true)) := by
  obtain ⟨m, cl⟩ := d
  simp only at hopen
  subst hopen
  refine ⟨⟨_, Dict.Set_running m k v, ?_, ?_⟩, ⟨_, Dict.Del_running m k, ?_, ?_⟩, ?_, ?_⟩
  · rw [Dict.Get_running, Data.lookup_assign_self]; rfl
  · intro k1 hk
    rw [Dict.Get_running, Dict.Get_running, Data.lookup_assign_ne _ _ _ _ hk]
  · rw [Dict.Get_running, Data.lookup_delete_self]; rfl
  · intro k1 hk
    rw [Dict.Get_running, Dict.Get_running, Data.lookup_delete_ne _ _ _ hk]
  · intro h
    rw [Dict.Get_running]
    simp only at h
    rw [h]; rfl
  · intro v0 h
    rw [Dict.Get_running]
    simp only at h
    rw [h]; rfl

theorem C9_registry_round_trip_witness :
    (Dict.New : Dict Nat).closed = false ∧
    ∃ d1, (Dict.New : Dict Nat).Set "a" 7 = .ret d1 ∧ d1.Get "a" = .ret (some 7, true) ∧
      ∀ k1, k1 ≠ "a" → d1.Get k1 = (Dict.New : Dict Nat).Get k1 :=
  ⟨rfl, (C9_registry_round_trip (Dict.New : Dict Nat) "a" 7 rfl).1⟩

/-- C10, as stated, fails: on the registry left by `New` and `Close`, `Get`
and `Map` return nothing and `Set` and `Del` do not return to the caller. -/
theorem C10_counterexample :
    (Dict.New : Dict Nat).Close = .ret ⟨Data.empty, true⟩ ∧
    (¬ ∃ r, (⟨Data.empty, true⟩ : Dict Nat).Get "k" = .ret r) ∧
    (¬ ∃ r, (⟨Data.empty, true⟩ : Dict Nat).Map = .ret r) ∧
    (¬ ∃ r, (⟨Data.empty, true⟩ : Dict Nat).Set "k" 1 = .ret r) ∧
    (¬ ∃ r, (⟨Data.empty, true⟩ : Dict Nat).Del "k" = .ret r) := by
  refine ⟨rfl, ?_, ?_, ?_, ?_⟩ <;> rintro ⟨r, h⟩ <;> cases h

/-- C10, amended: `Close` on a running registry returns and leaves it closed
with its contents; on a registry whose `Close` has been processed, `Get`,
`Map`, `Set`, `Del` and `Close` do not block and do not return: each panics
with a send on a closed channel, for every key and value. -/
theorem C10_closed_registry_panics {V : Type} (d : Dict V) (k : String) (v : V)
    (hopen : d.closed = false) :
    ∃ d1, d.Close = .ret d1 ∧ d1.closed = true ∧ d1.data = d.data ∧
      d1.Get k = .panic sendOnClosed ∧
      d1.Map = .panic sendOnClosed ∧
      d1.Set k v = .panic sendOnClosed ∧
      d1.Del k = .panic sendOnClosed ∧
      d1.Close = .panic sendOnClosed := by
  obtain ⟨m, cl⟩ := d
  simp only at hopen
  subst hopen
  exact ⟨⟨m, true⟩, rfl, rfl, rfl, rfl, rfl, rfl, rfl, rfl⟩

theorem C10_closed_registry_panics_witness :
    (Dict.New : Dict Nat).closed = false ∧
    ∃ d1, (Dict.New : Dict Nat).Close = .ret d1 ∧ d1.closed = true ∧
      d1.data = (Dict.New : Dict Nat).data ∧
      d1.Get "k" = .panic sendOnClosed ∧
      d1.Map = .panic sendOnClosed ∧
      d1.Set "k" 1 = .panic sendOnClosed ∧
      d1.Del "k" = .panic sendOnClosed ∧
      d1.Close = .panic sendOnClosed :=
  ⟨rfl, C10_closed_registry_panics (Dict.New : Dict Nat) "k" 1 rfl⟩

/-- C12: when the address of the connection resolves to an IP that has no
inner registry in the outer registry, `delClient` returns the error with the
text "no connections from this IP: " followed by the IP, and the state after
the call, count and registries, is the state before it. -/
theorem C12_release_unknown_ip (resolve : Resolver) (s : Service) (c : Conn) (ip : String)
    (hr : resolve c.network c.remote = .ok ip) (hl : s.connections.lookup ip = none) :
    delClient resolve s c = (some (.errorsNew ("no connections from this IP: " ++ ip)), s) ∧
    (Err.errorsNew ("no connections from this IP: " ++ ip)).Error =
      "no connections from this IP: " ++ ip :=
  ⟨delClient_unknown resolve s c ip hr hl, rfl⟩

theorem C12_release_unknown_ip_witness :
    delClient resolveLit (addClient resolveLit New cA1).2 cB1 =
      (some (.errorsNew "no connections from this IP: 10.0.0.2"),
        (addClient resolveLit New cA1).2) :=
  (C12_release_unknown_ip resolveLit (addClient resolveLit New cA1).2 cB1 "10.0.0.2" rfl
    (by decide)).1

/-- C13: with `MaxConnectionsPerIP = M > 0` and `MaxConnections ≤ 0`, when the
inner registry of IP `X` holds `M` entries, `addClient` of any connection
whose address resolves to `X`, whatever its port, returns
`errTooManyConnectionsPerIP` and leaves the state as it was, while `addClient`
of a connection whose address resolves to an IP that holds fewer than `M`
entries returns `nil`. -/
theorem C13_cap_is_per_ip (resolve : Resolver) (s : Service) (X : String) (inner : Data Conn)
    (hM : 0 < s.MaxConnectionsPerIP) (hN : s.MaxConnections ≤ 0)
    (hX : s.connections.lookup X = some inner)
    (hfull : (inner.len : Int) = s.MaxConnectionsPerIP) :
    (∀ c, resolve c.network c.remote = .ok X →
      addClient resolve s c = (some .errTooManyConnectionsPerIP, s)) ∧
    (∀ c Y, resolve c.network c.remote = .ok Y →
      ((currentConns s Y).len : Int) < s.MaxConnectionsPerIP →
      (addClient resolve s c).1 = none) := by
  have hg : ¬ (0 < s.MaxConnections ∧ s.MaxConnections ≤ s.connectionCount) := by
    rintro ⟨h, _⟩; omega
  constructor
  · intro c hr
    have hcur : currentConns s X = inner := by simp [currentConns, hX]
    exact (addClient_perIP resolve s c X hg hr ⟨hM, by rw [hcur, hfull]⟩).1
  · intro c Y hr hlt
    rw [addClient_ok resolve s c Y hg hr (by rintro ⟨_, h⟩; omega)]

theorem C13_cap_is_per_ip_witness :
    (addClient resolveLit
        (runOps resolveLit (configured 0 2) [.add cA1, .add cA2]) cA1bis).1 =
      some .errTooManyConnectionsPerIP ∧
    (addClient resolveLit (runOps resolveLit (configured 0 2) [.add cA1, .add cA2]) cB1).1 =
      none :=
  ⟨congrArg Prod.fst
      ((C13_cap_is_per_ip resolveLit (runOps resolveLit (configured 0 2) [.add cA1, .add cA2])
        "10.0.0.1" ((Data.empty.assign "10.0.0.1:1000" cA1).assign "10.0.0.1:2000" cA2)
        (by decide) (by decide) (by decide) (by decide)).1 cA1bis rfl),
    (C13_cap_is_per_ip resolveLit (runOps resolveLit (configured 0 2) [.add cA1, .add cA2])
      "10.0.0.1" ((Data.empty.assign "10.0.0.1:1000" cA1).assign "10.0.0.1:2000" cA2)
      (by decide) (by decide) (by decide) (by decide)).2 cB1 "10.0.0.2" rfl (by decide)⟩

/-- C14: in every state, with `MaxConnections ≤ 0` `addClient` does not return
`errTooManyConnections`, with `MaxConnectionsPerIP ≤ 0` it does not return
`errTooManyConnectionsPerIP`, and with both, which is how `New` leaves them,
it returns `nil` for every connection whose address resolves. -/
theorem C14_unlimited (resolve : Resolver) (s : Service) (c : Conn) :
    (s.MaxConnections ≤ 0 → (addClient resolve s c).1 ≠ some .errTooManyConnections) ∧
    (s.MaxConnectionsPerIP ≤ 0 →
      (addClient resolve s c).1 ≠ some .errTooManyConnectionsPerIP) ∧
    (s.MaxConnections ≤ 0 → s.MaxConnectionsPerIP ≤ 0 →
      (∃ ip, resolve c.network c.remote = .ok ip) → (addClient resolve s c).1 = none) ∧
    New.MaxConnections ≤ 0 ∧ New.MaxConnectionsPerIP ≤ 0 := by
  refine ⟨?_, ?_, ?_, by decide, by decide⟩
  · intro hN
    have hg : ¬ (0 < s.MaxConnections ∧ s.MaxConnections ≤ s.connectionCount) := by
      rintro ⟨h, _⟩; omega
    cases hr : resolve c.network c.remote with
    | error e => rw [addClient_unresolved resolve s c e hg hr]; simp
    | ok ip =>
      by_cases hcap : 0 < s.MaxConnectionsPerIP ∧
          s.MaxConnectionsPerIP ≤ ((currentConns s ip).len : Int)
      · rw [(addClient_perIP resolve s c ip hg hr hcap).1]; simp
      · rw [addClient_ok resolve s c ip hg hr hcap]; simp
  · intro hP
    rcases addClient_cases resolve s c with h | ⟨e, h⟩ | h | ⟨ip, hr, hg, hcap, h⟩
    · rw [h]; simp
    · rw [h]; simp
    · exfalso
      by_cases hg : 0 < s.MaxConnections ∧ s.MaxConnections ≤ s.connectionCount
      · rw [addClient_global resolve s c hg] at h
        simp at h
      · cases hr : resolve c.network c.remote with
        | error e =>
          rw [addClient_unresolved resolve s c e hg hr] at h
          simp at h
        | ok ip =>
          rw [addClient_ok resolve s c ip hg hr (by rintro ⟨h1, _⟩; omega)] at h
          simp at h
    · rw [h]; simp
  · rintro hN hP ⟨ip, hr⟩
    rw [addClient_ok resolve s c ip (by rintro ⟨h, _⟩; omega) hr (by rintro ⟨h, _⟩; omega)]

theorem C14_unlimited_witness :
    New.MaxConnections ≤ 0 ∧ New.MaxConnectionsPerIP ≤ 0 ∧
    (addClient resolveLit (runOps resolveLit New [.add cA1, .add cA2]) cA1bis).1 = none :=
  ⟨by decide, by decide,
    (C14_unlimited resolveLit (runOps resolveLit New [.add cA1, .add cA2]) cA1bis).2.2.1
      (by decide) (by decide) ⟨_, rfl⟩⟩

/-- C15: on a service from `New` with `MaxConnections = 2` and
`MaxConnectionsPerIP = 1`: `addClient` of a first connection of host A returns
`nil` and the count is 1; `addClient` of a second connection of A, on another
port, returns `errTooManyConnectionsPerIP` and the count stays 1; `addClient`
of a connection of host B returns `nil` and the count is 2; `delClient` of the
first connection of A returns `nil`, and `addClient` of a new connection of A
then returns `nil`. -/
theorem C15_scenario :
    runResults resolveLit (configured 2 1)
        [.add cA1, .add cA2, .add cB1, .del cA1, .add cA3] =
      [none, some .errTooManyConnectionsPerIP, none, none, none] ∧
    ConnectionCount (runOps resolveLit (configured 2 1) [.add cA1]) = 1 ∧
    ConnectionCount (runOps resolveLit (configured 2 1) [.add cA1, .add cA2]) = 1 ∧
    ConnectionCount (runOps resolveLit (configured 2 1) [.add cA1, .add cA2, .add cB1]) = 2 ∧
    ConnectionCount
      (runOps resolveLit (configured 2 1) [.add cA1, .add cA2, .add cB1, .del cA1]) = 1 ∧
    ConnectionCount
      (runOps resolveLit (configured 2 1)
        [.add cA1, .add cA2, .add cB1, .del cA1, .add cA3]) = 2 := by
  decide

/-- C17, as stated, fails: on a service from `New` with the count at the
greatest `int64`, `addClient(cA1)` returns `nil` and the count becomes the
least `int64`, which is not one more. -/
theorem C17_counterexample :
    atMax.connectionCount = 9223372036854775807 ∧
    (addClient resolveLit atMax cA1).1 = none ∧
    (addClient resolveLit atMax cA1).2.connectionCount = -9223372036854775808 ∧
    (addClient resolveLit atMax cA1).2.connectionCount ≠ atMax.connectionCount + 1 := by
  refine ⟨by decide, by decide, by decide, by decide⟩

/-- C17, amended: whenever `addClient(c)` returns `nil`, the address of `c`
resolves to an IP whose inner registry afterwards maps the remote endpoint of
`c` to `c` and maps every other key as the inner registry of that IP did
before, or to nothing when there was none; the inner registry of every other
IP is as it was, and the count has grown by one in `int64`: by exactly one
when the count is below the greatest `int64`, and from the greatest `int64`
to the least. -/
theorem C17_add_frame (resolve : Resolver) (s : Service) (c : Conn)
    (h : (addClient resolve s c).1 = none) :
    ∃ ip inner, resolve c.network c.remote = .ok ip ∧
      (addClient resolve s c).2.connections.lookup ip = some inner ∧
      inner.lookup c.remote = some c ∧
      (∀ key, key ≠ c.remote → inner.lookup key = (currentConns s ip).lookup key) ∧
      (∀ ip1, ip1 ≠ ip →
        (addClient resolve s c).2.connections.lookup ip1 = s.connections.lookup ip1) ∧
      (addClient resolve s c).2.connectionCount = wrap64 (s.connectionCount + 1) ∧
      (s.connectionCount < maxInt64 →
        (addClient resolve s c).2.connectionCount = s.connectionCount + 1) ∧
      (s.connectionCount = maxInt64 →
        (addClient resolve s c).2.connectionCount = minInt64) := by
  rcases addClient_cases resolve s c with h1 | ⟨e, h1⟩ | h1 | ⟨ip, hr, _, _, h1⟩
  · rw [h1] at h; cases h
  · rw [h1] at h; cases h
  · rw [h1] at h; cases h
  · rw [h1]
    refine ⟨ip, (currentConns s ip).assign c.remote c, hr, by simp, by simp, ?_, ?_, rfl,
      ?_, ?_⟩
    · intro key hk
      exact Data.lookup_assign_ne _ _ _ _ hk
    · intro ip1 hne
      exact Data.lookup_assign_ne _ _ _ _ hne
    · intro hlt
      have hmin := s.countInt64.1
      refine wrap64_of_range _ ⟨?_, by omega⟩
      unfold minInt64 at hmin ⊢
      omega
    · intro heq
      show wrap64 (s.connectionCount + 1) = minInt64
      rw [heq]
      exact wrap64_max

theorem C17_add_frame_witness :
    (addClient resolveLit (addClient resolveLit New cA1).2 cA2).1 = none ∧
    ∃ ip inner, resolveLit cA2.network cA2.remote = .ok ip ∧
      (addClient resolveLit (addClient resolveLit New cA1).2 cA2).2.connections.lookup ip =
        some inner ∧
      inner.lookup cA2.remote = some cA2 ∧
      (∀ key, key ≠ cA2.remote →
        inner.lookup key = (currentConns (addClient resolveLit New cA1).2 ip).lookup key) ∧
      (∀ ip1, ip1 ≠ ip →
        (addClient resolveLit (addClient resolveLit New cA1).2 cA2).2.connections.lookup ip1 =
          (addClient resolveLit New cA1).2.connections.lookup ip1) ∧
      (addClient resolveLit (addClient resolveLit New cA1).2 cA2).2.connectionCount =
        wrap64 ((addClient resolveLit New cA1).2.connectionCount + 1) ∧
      ((addClient resolveLit New cA1).2.connectionCount < maxInt64 →
        (addClient resolveLit (addClient resolveLit New cA1).2 cA2).2.connectionCount =
          (addClient resolveLit New cA1).2.connectionCount + 1) ∧
      ((addClient resolveLit New cA1).2.connectionCount = maxInt64 →
        (addClient resolveLit (addClient resolveLit New cA1).2 cA2).2.connectionCount =
          minInt64) :=
  ⟨by decide, C17_add_frame resolveLit (addClient resolveLit New cA1).2 cA2 (by decide)⟩

/-- C18, as stated, fails: with `MaxConnections = 1` and one connection
admitted, `addClient` of a connection whose address does not resolve returns
`errTooManyConnections`, not the resolution error. -/
theorem C18_counterexample :
    resolveLit cBad.network cBad.remote = .error "address bogus: missing port in address" ∧
    (addClient resolveLit (runOps resolveLit (configured 1 0) [.add cA1]) cBad).1 =
      some .errTooManyConnections ∧
    (addClient resolveLit (runOps resolveLit (configured 1 0) [.add cA1]) cBad).1 ≠
      some (.resolveErr "address bogus: missing port in address") := by
  refine ⟨rfl, by decide, by decide⟩

/-- C18, amended: `addClient` applies the global limit before it resolves the
address. On a connection whose address does not resolve it returns the
resolution error when the global limit does not reject, that is when
`MaxConnections ≤ 0` or the count is below `MaxConnections`, and
`errTooManyConnections` when it does; either way the state is left as it was,
so the connection is not tracked. -/
theorem C18_unresolved_address (resolve : Resolver) (s : Service) (c : Conn) (e : String)
    (hr : resolve c.network c.remote = .error e) :
    ((s.MaxConnections ≤ 0 ∨ s.connectionCount < s.MaxConnections) →
      addClient resolve s c = (some (.resolveErr e), s)) ∧
    ((0 < s.MaxConnections ∧ s.MaxConnections ≤ s.connectionCount) →
      addClient resolve s c = (some .errTooManyConnections, s)) := by
  constructor
  · intro h
    exact addClient_unresolved resolve s c e (by rintro ⟨h1, h2⟩; omega) hr
  · intro h
    exact addClient_global resolve s c h

theorem C18_unresolved_address_witness :
    addClient resolveLit (runOps resolveLit (configured 2 0) [.add cA1]) cBad =
      (some (.resolveErr "address bogus: missing port in address"),
        runOps resolveLit (configured 2 0) [.add cA1]) :=
  (C18_unresolved_address resolveLit (runOps resolveLit (configured 2 0) [.add cA1]) cBad
    "address bogus: missing port in address" rfl).1 (by decide)

/-- C19: in every state reached from `New` by `addClient` and `delClient`
calls, for every connection `c` whose remote endpoint is a key of no inner
registry, if `addClient(c)` returns `nil` then the `delClient(c)` that follows
returns `nil` and leaves the state, count, outer registry and inner
registries, exactly as it was before the `addClient`. -/
theorem C19_add_then_del (resolve : Resolver) (n m : Int) (ops : List Op) (c : Conn)
    (hfresh : ∀ ip inner,
      (runOps resolve (configured n m) ops).connections.lookup ip = some inner →
      inner.lookup c.remote = none)
    (hadd : (addClient resolve (runOps resolve (configured n m) ops) c).1 = none) :
    delClient resolve (addClient resolve (runOps resolve (configured n m) ops) c).2 c =
      (none, runOps resolve (configured n m) ops) := by
  have hw := wellKeyed_runOps resolve n m ops
  generalize runOps resolve (configured n m) ops = s at hfresh hadd hw ⊢
  rcases addClient_cases resolve s c with h1 | ⟨e, h1⟩ | h1 | ⟨ip, hr, _, _, h1⟩
  · rw [h1] at hadd; cases hadd
  · rw [h1] at hadd; cases hadd
  · rw [h1] at hadd; cases hadd
  · rw [h1]
    rw [delClient_ok resolve _ c ip ((currentConns s ip).assign c.remote c) hr (by simp)]
    have hcur : (currentConns s ip).lookup c.remote = none := by
      unfold currentConns
      cases hl : s.connections.lookup ip with
      | none => simp
      | some inner => simpa using hfresh ip inner hl
    rw [Data.delete_assign_of_lookup_none _ _ _ hcur]
    have hconn : (if (currentConns s ip).len = 0 then
          ((s.connections.assign ip ((currentConns s ip).assign c.remote c)).assign ip
            (currentConns s ip)).delete ip
        else (s.connections.assign ip ((currentConns s ip).assign c.remote c)).assign ip
          (currentConns s ip)) = s.connections := by
      rw [Data.assign_assign]
      cases hl : s.connections.lookup ip with
      | none =>
        have : currentConns s ip = Data.empty := by simp [currentConns, hl]
        rw [this, if_pos Data.len_empty]
        exact Data.delete_assign_of_lookup_none _ _ _ hl
      | some inner =>
        have : currentConns s ip = inner := by simp [currentConns, hl]
        rw [this, if_neg (hw ip inner hl).1]
        exact Data.assign_of_lookup _ _ _ hl
    simp only
    rw [hconn]
    obtain ⟨a, b, cs, d, hd⟩ := s
    simp [wrap64_add_sub d hd]

theorem C19_add_then_del_witness :
    (addClient resolveLit (runOps resolveLit (configured 2 1) [.add cA1]) cB1).1 = none ∧
    delClient resolveLit
        (addClient resolveLit (runOps resolveLit (configured 2 1) [.add cA1]) cB1).2 cB1 =
      (none, runOps resolveLit (configured 2 1) [.add cA1]) :=
  ⟨by decide, C19_add_then_del resolveLit 2 1 [.add cA1] cB1
    (by
      intro ip inner hl
      have hip : ip = "10.0.0.1" := by
        by_contra hne
        have h0 : (runOps resolveLit (configured 2 1) [.add cA1]).connections.lookup ip =
            none := by
          show Data.lookup (Data.empty.assign "10.0.0.1" (Data.empty.assign "10.0.0.1:1000" cA1))
            ip = none
          rw [Data.lookup_assign_ne _ _ _ _ hne]; rfl
        rw [h0] at hl; cases hl
      subst hip
      have h1 : (runOps resolveLit (configured 2 1) [.add cA1]).connections.lookup "10.0.0.1" =
          some (Data.empty.assign "10.0.0.1:1000" cA1) := by decide
      rw [h1] at hl
      cases hl
      decide)
    (by decide)⟩

/-- C11: `Set` applied to pairs with pairwise distinct keys, in any order, on
the registry from `New` returns each time, and `Map()` afterwards returns a
map whose size is the number of pairs and whose bindings are exactly those
pairs. On every running registry `Map()` returns its contents, and handling
the request leaves the registry as it was. -/
theorem C11_map_snapshot {V : Type} (kvs : List (String × V))
    (hkeys : (kvs.map Prod.fst).Nodup) :
    (∃ d m, (Dict.New : Dict V).setAll kvs = .ret d ∧ d.Map = .ret m ∧
      m.len = kvs.length ∧ ∀ k v, m.lookup k = some v ↔ (k, v) ∈ kvs) ∧
    (∀ d : Dict V, d.closed = false → d.Map = .ret d.data ∧ (d.run .chList).1 = d) := by
  constructor
  · have hentries := Data.foldl_assign_entries kvs (Data.empty : Data V)
      (by simpa [Data.empty] using hkeys)
    refine ⟨_, _, Dict.setAll_running kvs Data.empty, Dict.Map_running _, ?_, ?_⟩
    · unfold Data.len
      rw [hentries]
      simp [Data.empty]
    · intro k v
      unfold Data.lookup
      rw [hentries]
      simpa [Data.empty] using Data.lookupL_eq_some_iff kvs hkeys k v
  · rintro ⟨m, cl⟩ hopen
    simp only at hopen
    subst hopen
    exact ⟨Dict.Map_running m, rfl⟩

theorem C11_map_snapshot_witness :
    ([("b", 2), ("a", 1), ("c", 3)].map Prod.fst).Nodup ∧
    ∃ d m, (Dict.New : Dict Nat).setAll [("b", 2), ("a", 1), ("c", 3)] = .ret d ∧
      d.Map = .ret m ∧ m.len = 3 ∧
      ∀ k v, m.lookup k = some v ↔ (k, v) ∈ [("b", 2), ("a", 1), ("c", 3)] :=
  ⟨by decide, (C11_map_snapshot [("b", 2), ("a", 1), ("c", 3)] (by decide)).1⟩

/-- C16: when `addClient` returns an error `e` for the connection, then in
whatever order steps are asked for, only `handleConnection` itself takes
steps, at most three: the events so far are the first ones of `addClient`
returning `e`, the write of the text `e.Error()` to the connection, and the
close of the connection; the handler is not called and `delClient` is not
called; once no step is left the events are exactly these three and the state
is as it was. The text is "too many connections" for the global limit and
"too many connections from IP address" for the per-IP limit. -/
theorem C16_rejection_notice (resolve : Resolver) (s : Service) (conn : Conn)
    (result : Option String) (e : Err) (sched : List handleConnection.Tid)
    (cfg : handleConnection.Config) (hrej : (addClient resolve s conn).1 = some e)
    (hrun : handleConnection.exec resolve conn result sched (handleConnection.init s) =
      some cfg) :
    cfg.trace = ([handleConnection.Event.addClient conn (some e),
      handleConnection.Event.write conn e.Error,
      handleConnection.Event.close conn]).take sched.length ∧
    sched.length ≤ 3 ∧
    handleConnection.Event.handlerCall conn ∉ cfg.trace ∧
    (∀ r, handleConnection.Event.delClient conn r ∉ cfg.trace) ∧
    cfg.task = .idle ∧ cfg.handler = .idle ∧
    ((∀ t, handleConnection.step resolve conn result t cfg = none) →
      cfg.trace = [handleConnection.Event.addClient conn (some e),
        handleConnection.Event.write conn e.Error, handleConnection.Event.close conn] ∧
      cfg.svc = s) ∧
    Err.errTooManyConnections.Error = "too many connections" ∧
    Err.errTooManyConnectionsPerIP.Error = "too many connections from IP address" := by
  have h := handleConnection.rejecting_exec resolve s conn result e hrej sched 0
    (handleConnection.init s) cfg (handleConnection.rejecting_init s conn e) hrun
  rw [Nat.zero_add] at h
  have hmem : ∀ ev, ev ∈ cfg.trace → ev = handleConnection.Event.addClient conn (some e) ∨
      ev = handleConnection.Event.write conn e.Error ∨
      ev = handleConnection.Event.close conn := by
    intro ev hev
    rw [h.trace] at hev
    have := List.mem_of_mem_take hev
    simpa [handleConnection.rejectedTrace] using this
  refine ⟨h.trace, h.le, ?_, ?_, h.task, h.handler, ?_, rfl, rfl⟩
  · intro hc
    rcases hmem _ hc with h1 | h1 | h1 <;> cases h1
  · intro r hc
    rcases hmem _ hc with h1 | h1 | h1 <;> cases h1
  · intro hstuck
    have hk := handleConnection.rejecting_stuck resolve s conn result e sched.length cfg h hstuck
    refine ⟨?_, h.svc⟩
    rw [h.trace, hk]
    rfl

theorem C16_rejection_notice_witness :
    (addClient resolveLit (runOps resolveLit (configured 2 1) [.add cA1]) cA2).1 =
      some .errTooManyConnectionsPerIP ∧
    ∃ cfg, handleConnection.exec resolveLit cA2 none [.main, .main, .main]
        (handleConnection.init (runOps resolveLit (configured 2 1) [.add cA1])) = some cfg ∧
      cfg.trace = [.addClient cA2 (some .errTooManyConnectionsPerIP),
        .write cA2 "too many connections from IP address", .close cA2] :=
  ⟨by decide, _, rfl,
    (C16_rejection_notice resolveLit (runOps resolveLit (configured 2 1) [.add cA1]) cA2 none
      .errTooManyConnectionsPerIP [.main, .main, .main] _ (by decide) rfl).1⟩

/-- C20 fails on the code. From the state in which `cA1` of host A is the only
tracked connection, `addClient(cA2)` for another connection of A and
`delClient(cA1)` are run call by call. In either serial order the steps give
what the two functions give one after the other, and `cA2` ends up in the
inner registry that the outer registry holds for A. In the order in which
`addClient` has fetched the inner registry of A before `delClient` empties it
and removes A from the outer registry, both calls return `nil`, `cA2` is put
in a registry that the outer registry no longer holds, the count is 1 with no
tracked entry, no serial order gives that state, and a later `delClient(cA2)`
fails and leaves the count at 1. -/
theorem C20_lost_registration :
    sharedA1.view = (addClient resolveLit New cA1).2 ∧
    (Interleaving.exec resolveLit cA2 cA1
        [.add, .add, .add, .add, .add, .del, .del, .del, .del]
        (Interleaving.start sharedA1)).map (fun cfg => cfg.shared.view) =
      some (delClient resolveLit (addClient resolveLit sharedA1.view cA2).2 cA1).2 ∧
    (Interleaving.exec resolveLit cA2 cA1
        [.del, .del, .del, .del, .del, .add, .add, .add, .add, .add, .add]
        (Interleaving.start sharedA1)).map (fun cfg => cfg.shared.view) =
      some (addClient resolveLit (delClient resolveLit sharedA1.view cA1).2 cA2).2 ∧
    ((delClient resolveLit (addClient resolveLit sharedA1.view cA2).2
        cA1).2.connections.lookup "10.0.0.1").bind (fun inner => inner.lookup cA2.remote) =
      some cA2 ∧
    ((addClient resolveLit (delClient resolveLit sharedA1.view cA1).2
        cA2).2.connections.lookup "10.0.0.1").bind (fun inner => inner.lookup cA2.remote) =
      some cA2 ∧
    ∃ cfg, Interleaving.exec resolveLit cA2 cA1
        [.add, .add, .del, .del, .del, .del, .add, .add, .add, .del]
        (Interleaving.start sharedA1) = some cfg ∧
      cfg.add = .returned none ∧ cfg.del = .returned none ∧
      cfg.shared.view.connections.lookup "10.0.0.1" = none ∧
      cfg.shared.view.connections.len = 0 ∧
      cfg.shared.dicts = [Data.empty.assign "10.0.0.1:2000" cA2] ∧
      cfg.shared.view.connectionCount = 1 ∧
      cfg.shared.view ≠
        (delClient resolveLit (addClient resolveLit sharedA1.view cA2).2 cA1).2 ∧
      cfg.shared.view ≠
        (addClient resolveLit (delClient resolveLit sharedA1.view cA1).2 cA2).2 ∧
      delClient resolveLit cfg.shared.view cA2 =
        (some (.errorsNew "no connections from this IP: 10.0.0.1"), cfg.shared.view) := by
  refine ⟨by decide, by decide, by decide, by decide, by decide, _, rfl, by decide, by decide,
    by decide, by decide, by decide, by decide, by decide, by decide, by decide⟩

end OctogoNet
